import Mathlib

/-!
Shallow embedding of the raytracing diorama renderer
(src/raytracing/src/{main.rs, cube.rs, camera.rs}) over exact real
arithmetic.  The f32 values of the source are modelled as real numbers;
machine rounding is not modelled.  The adaptive-renderer pixel loops are
modelled over natural numbers and exact rationals so that concrete
instances are computable by the kernel.
-/

namespace RT

noncomputable section

/-- Three-component vector of reals, modelling raylib Vector3 (f32 fields). -/
structure Vector3 where
  x : ℝ
  y : ℝ
  z : ℝ
deriving DecidableEq

namespace Vector3

def zero : Vector3 := ⟨0, 0, 0⟩

instance : Add Vector3 := ⟨fun a b => ⟨a.x + b.x, a.y + b.y, a.z + b.z⟩⟩

instance : Sub Vector3 := ⟨fun a b => ⟨a.x - b.x, a.y - b.y, a.z - b.z⟩⟩

instance : Neg Vector3 := ⟨fun a => ⟨-a.x, -a.y, -a.z⟩⟩

/-- Scaling a vector by a scalar, modelling raylib Vector3 * f32. -/
instance : HMul Vector3 ℝ Vector3 := ⟨fun v s => ⟨v.x * s, v.y * s, v.z * s⟩⟩

def dot (a b : Vector3) : ℝ := a.x * b.x + a.y * b.y + a.z * b.z

def cross (a b : Vector3) : Vector3 :=
  ⟨a.y * b.z - a.z * b.y, a.z * b.x - a.x * b.z, a.x * b.y - a.y * b.x⟩

def length (v : Vector3) : ℝ := Real.sqrt (dot v v)

/-- Componentwise division by the length, modelling raylib normalized().
In this real-number model division by a zero length yields the zero vector. -/
def normalized (v : Vector3) : Vector3 :=
  ⟨v.x / v.length, v.y / v.length, v.z / v.length⟩

end Vector3

/-- Material shading parameters (material.rs is not under src/).
Modelled from the spec: diffuse color, Phong exponent, four albedo mixing
weights for diffuse, specular, reflection, transparency, and a refractive
index that the canonical build never consults. -/
structure Material where
  diffuse : Vector3
  specular : ℝ
  albedo : Fin 4 → ℝ
  refractive_index : ℝ

/-- RGBA8 color with natural-number channels (raylib Color). -/
structure Color where
  r : ℕ
  g : ℕ
  b : ℕ
  a : ℕ

/-- Point light (light.rs is not under src/).
Modelled from the spec: position, RGB8 color, scalar intensity. -/
structure Light where
  position : Vector3
  color : Color
  intensity : ℝ

/-- A texture is consumed only through its point-sampling interface
(image decoding is an external collaborator); it is modelled as the
function from clamped UV coordinates to the sampled RGB triple. -/
structure Texture where
  sample : ℝ → ℝ → Vector3

/-- Intersection record (ray_intersect.rs is not under src/).
Modelled from the spec: hit flag, hit point, outward normal, distance, and
the material of the hit surface already modulated by the texture sample. -/
structure Intersect where
  is_intersecting : Bool
  point : Vector3
  normal : Vector3
  distance : ℝ
  material : Material

/-- Modelled from the spec: the empty (miss) intersection record returned
by ray_intersect on a miss; its hit flag is false and the remaining fields
are never consulted by the renderer. -/
def Intersect.empty : Intersect :=
  ⟨false, Vector3.zero, Vector3.zero, 0, ⟨Vector3.zero, 0, fun _ => 0, 0⟩⟩

/-- Modelled from the spec: the hit constructor used by cube.rs, which
sets the hit flag to true. -/
def Intersect.mkHit (point normal : Vector3) (distance : ℝ) (material : Material) :
    Intersect :=
  ⟨true, point, normal, distance, material⟩

/-- Cube primitive from cube.rs: center, edge length, material, optional
texture. -/
structure Cube where
  center : Vector3
  size : ℝ
  material : Material
  texture : Option Texture

/-- Guarded reciprocal of one ray-direction component, from the inv_dir
computation of Cube::ray_intersect (cube.rs lines 104-108): components of
magnitude below 1e-8 are replaced by the constant 1e8. -/
def invDirComponent (d : ℝ) : ℝ :=
  if |d| < 1e-8 then 1e8 else 1 / d

/-- Per-face UV parameterization from Cube::calculate_uv (cube.rs). -/
def Cube.calculate_uv (self : Cube) (point normal : Vector3) : ℝ × ℝ :=
  let local_point := point - self.center
  let half_size := self.size / 2
  let uv :=
    if |normal.x| > 0.9 then
      if normal.x > 0 then
        ((-local_point.z + half_size) / self.size, (local_point.y + half_size) / self.size)
      else
        ((local_point.z + half_size) / self.size, (local_point.y + half_size) / self.size)
    else if |normal.y| > 0.9 then
      if normal.y > 0 then
        ((local_point.x + half_size) / self.size, (-local_point.z + half_size) / self.size)
      else
        ((local_point.x + half_size) / self.size, (local_point.z + half_size) / self.size)
    else
      if normal.z > 0 then
        ((local_point.x + half_size) / self.size, (local_point.y + half_size) / self.size)
      else
        ((-local_point.x + half_size) / self.size, (local_point.y + half_size) / self.size)
  (min (max uv.1 0) 1, min (max uv.2 0) 1)

/-- Texture sampling from Cube::sample_texture (cube.rs): with a texture
the clamped UV pair is sampled; without one the result is white. -/
def Cube.sample_texture (self : Cube) (u v : ℝ) : Vector3 :=
  match self.texture with
  | some t => t.sample (min (max u 0) 1) (min (max v 0) 1)
  | none => ⟨1, 1, 1⟩

/-- The face-plane normal selection of Cube::ray_intersect (cube.rs lines
134-150): sequential 1e-6 proximity tests against the six face planes in
the order +X, -X, +Y, -Y, +Z, with -Z as the fallback. -/
def slab_normal (half_size : ℝ) (local_point : Vector3) : Vector3 :=
  if |local_point.x - half_size| < 1e-6 then ⟨1, 0, 0⟩
  else if |local_point.x + half_size| < 1e-6 then ⟨-1, 0, 0⟩
  else if |local_point.y - half_size| < 1e-6 then ⟨0, 1, 0⟩
  else if |local_point.y + half_size| < 1e-6 then ⟨0, -1, 0⟩
  else if |local_point.z - half_size| < 1e-6 then ⟨0, 0, 1⟩
  else ⟨0, 0, -1⟩

/-- The hit-record construction of Cube::ray_intersect (cube.rs lines
132-164) for an already determined hit distance t: hit point, face
normal, UV lookup and texture modulation of the diffuse color. -/
def Cube.hit_record (self : Cube) (ray_origin ray_direction : Vector3) (t : ℝ) :
    Intersect :=
  let point := ray_origin + ray_direction * t
  let local_point := point - self.center
  let normal := slab_normal (self.size / 2) local_point
  let uv := self.calculate_uv point normal
  let texture_color := self.sample_texture uv.1 uv.2
  let textured_material : Material :=
    { self.material with
      diffuse := ⟨self.material.diffuse.x * texture_color.x,
                  self.material.diffuse.y * texture_color.y,
                  self.material.diffuse.z * texture_color.z⟩ }
  Intersect.mkHit point normal t textured_material

/-- Slab-method ray/cube intersection from Cube::ray_intersect (cube.rs
lines 98-165), including the guarded reciprocal, the tmin/tmax interval
test, the epsilon face-plane normal selection, and the texture modulation
of the diffuse color. -/
def Cube.ray_intersect (self : Cube) (ray_origin ray_direction : Vector3) : Intersect :=
  let half_size := self.size / 2
  let min_bounds := self.center - ⟨half_size, half_size, half_size⟩
  let max_bounds := self.center + ⟨half_size, half_size, half_size⟩
  let inv_dir : Vector3 :=
    ⟨invDirComponent ray_direction.x, invDirComponent ray_direction.y,
      invDirComponent ray_direction.z⟩
  let t1 := (min_bounds.x - ray_origin.x) * inv_dir.x
  let t2 := (max_bounds.x - ray_origin.x) * inv_dir.x
  let t3 := (min_bounds.y - ray_origin.y) * inv_dir.y
  let t4 := (max_bounds.y - ray_origin.y) * inv_dir.y
  let t5 := (min_bounds.z - ray_origin.z) * inv_dir.z
  let t6 := (max_bounds.z - ray_origin.z) * inv_dir.z
  let tmin := max (max (min t1 t2) (min t3 t4)) (min t5 t6)
  let tmax := min (min (max t1 t2) (max t3 t4)) (max t5 t6)
  if tmax < 0 ∨ tmin > tmax then Intersect.empty
  else
    let t := if tmin > 0 then tmin else tmax
    if t ≤ 0 then Intersect.empty
    else self.hit_record ray_origin ray_direction t

/-- Two-argument arctangent, modelling f32::atan2 used by Camera::new. -/
def atan2 (y x : ℝ) : ℝ :=
  if 0 < x then Real.arctan (y / x)
  else if x < 0 then
    (if 0 ≤ y then Real.arctan (y / x) + Real.pi else Real.arctan (y / x) - Real.pi)
  else
    (if 0 < y then Real.pi / 2 else if y < 0 then -(Real.pi / 2) else 0)

/-- First-person camera from camera.rs. -/
structure Camera where
  eye : Vector3
  center : Vector3
  up : Vector3
  forward : Vector3
  right : Vector3
  yaw : ℝ
  pitch : ℝ

namespace Camera

/-- Camera::update_basis_vectors (camera.rs lines 37-54): rebuild forward
from yaw and pitch, move center, derive right from the cross product with
the stored up vector, then overwrite up with right x forward. -/
def update_basis_vectors (self : Camera) : Camera :=
  let cos_pitch := Real.cos self.pitch
  let forward : Vector3 :=
    ⟨cos_pitch * Real.cos self.yaw, Real.sin self.pitch, cos_pitch * Real.sin self.yaw⟩
  let center := self.eye + forward
  let right := (Vector3.cross forward self.up).normalized
  let up := Vector3.cross right forward
  { self with forward := forward, center := center, right := right, up := up }

/-- Camera::new (camera.rs lines 16-34): derive yaw and pitch from the
eye-to-center direction, then build the basis. -/
def new (eye center up : Vector3) : Camera :=
  let direction := (center - eye).normalized
  let c : Camera :=
    { eye := eye, center := center, up := up, forward := Vector3.zero,
      right := Vector3.zero, yaw := atan2 direction.z direction.x,
      pitch := Real.arcsin direction.y }
  c.update_basis_vectors

/-- Camera::rotate (camera.rs lines 57-61): add the deltas, clamp pitch to
[-1.5, 1.5], rebuild the basis. -/
def rotate (self : Camera) (delta_yaw delta_pitch : ℝ) : Camera :=
  ({ self with yaw := self.yaw + delta_yaw,
               pitch := min (max (self.pitch + delta_pitch) (-1.5)) 1.5 }).update_basis_vectors

/-- Camera::move_forward (camera.rs lines 64-67). -/
def move_forward (self : Camera) (distance : ℝ) : Camera :=
  ({ self with eye := self.eye + self.forward * distance }).update_basis_vectors

/-- Camera::move_right (camera.rs lines 70-73). -/
def move_right (self : Camera) (distance : ℝ) : Camera :=
  ({ self with eye := self.eye + self.right * distance }).update_basis_vectors

/-- Camera::move_up (camera.rs lines 76-79): world-up translation of the
eye only. -/
def move_up (self : Camera) (distance : ℝ) : Camera :=
  ({ self with eye := ⟨self.eye.x, self.eye.y + distance, self.eye.z⟩ }).update_basis_vectors

/-- Camera::basis_change (camera.rs lines 82-88). -/
def basis_change (self : Camera) (v : Vector3) : Vector3 :=
  ⟨v.x * self.right.x + v.y * self.up.x - v.z * self.forward.x,
   v.x * self.right.y + v.y * self.up.y - v.z * self.forward.y,
   v.x * self.right.z + v.y * self.up.z - v.z * self.forward.z⟩

end Camera

/-- One camera operation, used to reason about arbitrary operation
sequences driven by the main loop. -/
inductive CamOp where
  | rotate (delta_yaw delta_pitch : ℝ)
  | moveForward (distance : ℝ)
  | moveRight (distance : ℝ)
  | moveUp (distance : ℝ)

/-- Apply one camera operation. -/
def applyCamOp (c : Camera) : CamOp → Camera
  | CamOp.rotate dy dp => c.rotate dy dp
  | CamOp.moveForward d => c.move_forward d
  | CamOp.moveRight d => c.move_right d
  | CamOp.moveUp d => c.move_up d

/-- Apply a sequence of camera operations in order. -/
def applyCamOps (c : Camera) (ops : List CamOp) : Camera :=
  ops.foldl applyCamOp c

/-- ORIGIN_BIAS constant (main.rs line 18). -/
def ORIGIN_BIAS : ℝ := 1e-4

/-- MAX_RAY_DEPTH constant (main.rs line 25). -/
def MAX_RAY_DEPTH : ℕ := 2

/-- FRUSTUM_CULLING feature guard (main.rs line 26); true in the source. -/
def FRUSTUM_CULLING : Bool := true

/-- Procedural sky gradient (main.rs lines 29-48). -/
def procedural_sky (dir : Vector3) : Vector3 :=
  let d := dir.normalized
  let t := (d.y + 1) * 0.5
  let green : Vector3 := ⟨0.1, 0.6, 0.2⟩
  let white : Vector3 := ⟨1, 1, 1⟩
  let blue : Vector3 := ⟨0.3, 0.5, 1⟩
  if t < 0.54 then
    let k := t / 0.55
    green * (1 - k) + white * k
  else if t < 0.55 then white
  else if t < 0.8 then
    let k := (t - 0.55) / 0.25
    white * (1 - k) + blue * k
  else blue

/-- Self-intersection avoidance offset (main.rs lines 50-58). -/
def offset_origin (intersect : Intersect) (direction : Vector3) : Vector3 :=
  let offset := intersect.normal * ORIGIN_BIAS
  if direction.dot intersect.normal < 0 then intersect.point - offset
  else intersect.point + offset

/-- Mirror reflection of an incident vector about a normal (main.rs lines
60-63). -/
def reflect (incident normal : Vector3) : Vector3 :=
  incident - normal * (2 * incident.dot normal)

/-- The shadow loop of cast_shadow (main.rs lines 81-87): scan the scene
in order and return 0.8 at the first occluder closer than the light by
more than 0.01, else 0. -/
def shadow_scan (shadow_ray_origin light_dir : Vector3) (light_distance : ℝ) :
    List Cube → ℝ
  | [] => 0
  | object :: rest =>
    let shadow_intersect := object.ray_intersect shadow_ray_origin light_dir
    if shadow_intersect.is_intersecting = true ∧
        shadow_intersect.distance < light_distance - 0.01 then 0.8
    else shadow_scan shadow_ray_origin light_dir light_distance rest

/-- cast_shadow (main.rs lines 66-88): early 0.2 exit for lights farther
than 25, otherwise the occluder scan. -/
def cast_shadow (intersect : Intersect) (light : Light) (objects : List Cube) : ℝ :=
  let light_dir := (light.position - intersect.point).normalized
  let light_distance := (light.position - intersect.point).length
  let shadow_ray_origin := offset_origin intersect light_dir
  if light_distance > 25 then 0.2
  else shadow_scan shadow_ray_origin light_dir light_distance objects

/-- is_in_frustum (main.rs lines 91-111): with the FRUSTUM_CULLING guard
enabled, cubes farther than 35 from the camera eye or clearly behind it
are culled. -/
def is_in_frustum (cube_center : Vector3) (cube_size : ℝ) (camera : Camera)
    (fov aspect : ℝ) : Bool :=
  if FRUSTUM_CULLING = false then true
  else
    let to_cube := cube_center - camera.eye
    let distance := to_cube.length
    if distance > 35 then false
    else
      let forward_dot := to_cube.normalized.dot camera.forward
      if forward_dot < -0.5 then false else true

/-- One step of the closest-hit loop of cast_ray (main.rs lines 132-143).
The source tracks the running minimum distance in a separate zbuffer
initialised to infinity; here the accumulator is the running intersection
record, whose distance equals that zbuffer exactly when its hit flag is
set, so the comparison against an infinite zbuffer becomes the
is_intersecting = false disjunct. -/
def closest_hit_step (ray_origin ray_direction : Vector3) (camera : Camera)
    (fov aspect : ℝ) (acc : Intersect) (object : Cube) : Intersect :=
  if is_in_frustum object.center object.size camera fov aspect = false then acc
  else
    let i := object.ray_intersect ray_origin ray_direction
    if i.is_intersecting = true ∧ (acc.is_intersecting = false ∨ i.distance < acc.distance)
    then i else acc

/-- The closest-hit search of cast_ray (main.rs lines 128-143): linear
scan over the scene restricted to frustum-passing cubes. -/
def scene_closest_hit (objects : List Cube) (ray_origin ray_direction : Vector3)
    (camera : Camera) (fov aspect : ℝ) : Intersect :=
  objects.foldl (closest_hit_step ray_origin ray_direction camera fov aspect) Intersect.empty

/-- The shadow-intensity selection of cast_ray (main.rs lines 156-161):
the feeler runs only for lights closer than 20; farther hits get the flat
0.1 value. -/
def shadow_intensity_term (intersect : Intersect) (light : Light)
    (objects : List Cube) : ℝ :=
  if (light.position - intersect.point).length < 20 then
    cast_shadow intersect light objects
  else 0.1

/-- Conversion of the light color to an RGB triple in [0,1], from the
light_color_v3 computation of cast_ray (main.rs lines 177-181). -/
def light_color_v3 (light : Light) : Vector3 :=
  ⟨(light.color.r : ℝ) / 255, (light.color.g : ℝ) / 255, (light.color.b : ℝ) / 255⟩

/-- The specular branch of cast_ray (main.rs lines 172-185): evaluated
only for primary rays with the light closer than 8, with a hardwired
Phong exponent of 20 and a 0.2 scale. -/
def specular_component (ray_origin : Vector3) (intersect : Intersect) (light : Light)
    (light_dir : Vector3) (light_distance light_intensity : ℝ) (depth : ℕ) : Vector3 :=
  if light_distance < 8 ∧ depth = 0 then
    let view_dir := (ray_origin - intersect.point).normalized
    let reflect_dir := (reflect (-light_dir) intersect.normal).normalized
    let specular_intensity := (max (view_dir.dot reflect_dir) 0) ^ (20 : ℕ)
    light_color_v3 light * (specular_intensity * light_intensity * 0.2)
  else Vector3.zero

/-- cast_ray (main.rs lines 114-211): depth guard, closest-hit search,
direct lighting with shadow and attenuation, specular branch, recursive
reflection and straight-through transparency, composite with ambient and
an upper clamp at 1. -/
def cast_ray (ray_origin ray_direction : Vector3) (objects : List Cube) (light : Light)
    (depth : ℕ) (camera : Camera) (fov aspect : ℝ) : Vector3 :=
  if depth > MAX_RAY_DEPTH then procedural_sky ray_direction
  else
    let intersect := scene_closest_hit objects ray_origin ray_direction camera fov aspect
    if intersect.is_intersecting = false then procedural_sky ray_direction
    else
      let light_dir := (light.position - intersect.point).normalized
      let light_distance := (light.position - intersect.point).length
      let ambient : Vector3 := ⟨0.1, 0.1, 0.15⟩
      let shadow_intensity := shadow_intensity_term intersect light objects
      let light_visibility := 1 - shadow_intensity
      let distance_falloff := 1 / (1 + light_distance * light_distance * 0.005)
      let diffuse_intensity := max (intersect.normal.dot light_dir) 0
      let light_intensity := light.intensity * light_visibility * distance_falloff
      let diffuse := intersect.material.diffuse * (diffuse_intensity * light_intensity)
      let specular := specular_component ray_origin intersect light light_dir
        light_distance light_intensity depth
      let reflection_color :=
        if h : intersect.material.albedo 2 > 0 ∧ depth < MAX_RAY_DEPTH then
          let reflect_dir := (reflect ray_direction intersect.normal).normalized
          let reflect_origin := offset_origin intersect reflect_dir
          cast_ray reflect_origin reflect_dir objects light (depth + 1) camera fov aspect
        else Vector3.zero
      let refract_color :=
        if h : intersect.material.albedo 3 > 0 ∧ depth < MAX_RAY_DEPTH then
          let refract_origin := offset_origin intersect ray_direction
          cast_ray refract_origin ray_direction objects light (depth + 1) camera fov aspect
        else Vector3.zero
      let albedo := intersect.material.albedo
      let final_color := diffuse * albedo 0 + specular * albedo 1 +
        reflection_color * albedo 2 + refract_color * albedo 3 + ambient
      ⟨min final_color.x 1, min final_color.y 1, min final_color.z 1⟩
termination_by MAX_RAY_DEPTH + 1 - depth
decreasing_by
  all_goals
    have hd := h.2
    simp only [MAX_RAY_DEPTH] at hd ⊢
    omega

/-- Rounding of a nonnegative rational to the nearest natural number,
modelling f32::round as used for the render dimensions (main.rs lines
228-229); halves round up, matching round-half-away-from-zero on
nonnegative values. -/
def roundNat (q : ℚ) : ℕ := (⌊q + 1/2⌋).toNat

/-- Ceiling of a nonnegative rational as a natural number, modelling the
f32 ceil of the block-step computation (main.rs lines 253-254). -/
def ceilNat (q : ℚ) : ℕ := (⌈q⌉).toNat

/-- The set_pixel calls of the full-resolution path of render_adaptive
(main.rs lines 232-250), in execution order. -/
def full_res_pixels (width height : ℕ) : List (ℕ × ℕ) :=
  (List.range height).flatMap fun y => (List.range width).map fun x => (x, y)

/-- The set_pixel calls of one low-resolution block (main.rs lines
276-285): the clipped step_x by step_y block at block coordinates (i, j). -/
def block_pixels (width height step_x step_y i j : ℕ) : List (ℕ × ℕ) :=
  (List.range' (j * step_y) (min ((j + 1) * step_y) height - j * step_y)).flatMap
    fun py => (List.range' (i * step_x) (min ((i + 1) * step_x) width - i * step_x)).map
      fun px => (px, py)

/-- The set_pixel calls of the low-resolution block loops of
render_adaptive (main.rs lines 256-287). -/
def low_res_core_pixels (width height rw rh step_x step_y : ℕ) : List (ℕ × ℕ) :=
  (List.range rh).flatMap fun j => (List.range rw).flatMap fun i =>
    block_pixels width height step_x step_y i j

/-- The set_pixel calls of the right-edge gap fill of render_adaptive
(main.rs lines 290-316). -/
def right_edge_fill_pixels (width height rw step_x : ℕ) : List (ℕ × ℕ) :=
  if rw * step_x < width ∧ 0 < rw then
    (List.range height).flatMap fun y =>
      (List.range' (rw * step_x) (width - rw * step_x)).map fun x => (x, y)
  else []

/-- The set_pixel calls of the bottom-edge gap fill of render_adaptive
(main.rs lines 318-341). -/
def bottom_edge_fill_pixels (width height rw rh step_x step_y : ℕ) : List (ℕ × ℕ) :=
  if rh * step_y < height ∧ 0 < rh then
    (List.range' (rh * step_y) (height - rh * step_y)).flatMap fun y =>
      (List.range (rw * step_x)).map fun x => (x, y)
  else []

/-- The complete sequence of set_pixel calls performed by render_adaptive
(main.rs lines 214-343) for a given framebuffer size and render scale. -/
def render_adaptive_pixels (width height : ℕ) (render_scale : ℚ) : List (ℕ × ℕ) :=
  let render_width := min (max (roundNat (width * render_scale)) 1) width
  let render_height := min (max (roundNat (height * render_scale)) 1) height
  if 95 / 100 ≤ render_scale then full_res_pixels width height
  else
    let step_x := ceilNat ((width : ℚ) / (render_width : ℚ))
    let step_y := ceilNat ((height : ℚ) / (render_height : ℚ))
    low_res_core_pixels width height render_width render_height step_x step_y ++
      right_edge_fill_pixels width height render_width step_x ++
      bottom_edge_fill_pixels width height render_width render_height step_x step_y

/-- Definition following the words of claim C5 (spec section 4.1, normal
selection): the axis-aligned unit normal of the face whose axis maximizes
the absolute value of L = P - C, ties broken in axis order X, Y, Z, with
the sign taken from the selected component (nonnegative mapped to +). -/
def claimed_normal (L : Vector3) : Vector3 :=
  if |L.y| ≤ |L.x| ∧ |L.z| ≤ |L.x| then (if 0 ≤ L.x then ⟨1, 0, 0⟩ else ⟨-1, 0, 0⟩)
  else if |L.z| ≤ |L.y| then (if 0 ≤ L.y then ⟨0, 1, 0⟩ else ⟨0, -1, 0⟩)
  else (if 0 ≤ L.z then ⟨0, 0, 1⟩ else ⟨0, 0, -1⟩)

/-- Concrete white-diffuse material with Phong exponent 32 and adjustable
diffuse and specular albedo weights, used by the concrete claim
instances. -/
def probeMaterial (a0 a1 : ℝ) : Material := ⟨⟨1, 1, 1⟩, 32, ![a0, a1, 0, 0], 1⟩

/-- Concrete untextured cube of edge length 2 at the origin. -/
def probeCube (a0 a1 : ℝ) : Cube := ⟨⟨0, 0, 0⟩, 2, probeMaterial a0 a1, none⟩

/-- Concrete white light on the vertical axis at adjustable height. -/
def probeLight (h : ℝ) : Light := ⟨⟨0, h, 0⟩, ⟨255, 255, 255, 255⟩, 3⟩

/-- Concrete camera above the probe cube looking straight down. -/
def probeCamera : Camera :=
  ⟨⟨0, 5, 0⟩, ⟨0, 0, 0⟩, ⟨0, 1, 0⟩, ⟨0, -1, 0⟩, ⟨1, 0, 0⟩, 0, 0⟩

/-- Concrete camera at the origin looking along +X. -/
def originCamera : Camera :=
  ⟨⟨0, 0, 0⟩, ⟨1, 0, 0⟩, ⟨0, 1, 0⟩, ⟨1, 0, 0⟩, ⟨0, 0, 1⟩, 0, 0⟩

/-- Concrete untextured cube of edge length 2 centered at (40,0,0), which
is farther than the 35-unit culling distance from the origin camera. -/
def farCube : Cube := ⟨⟨40, 0, 0⟩, 2, probeMaterial 0.9 0.1, none⟩

end

/-! Helper lemmas shared by the claim developments. -/

theorem sqrt_eval {a b : ℝ} (hb : 0 ≤ b) (h : b ^ 2 = a) : Real.sqrt a = b := by
  rw [← h, Real.sqrt_sq hb]

@[simp] theorem Vector3.add_def (a b : Vector3) :
    a + b = ⟨a.x + b.x, a.y + b.y, a.z + b.z⟩ := rfl

@[simp] theorem Vector3.sub_def (a b : Vector3) :
    a - b = ⟨a.x - b.x, a.y - b.y, a.z - b.z⟩ := rfl

@[simp] theorem Vector3.neg_def (a : Vector3) : -a = ⟨-a.x, -a.y, -a.z⟩ := rfl

@[simp] theorem Vector3.hmul_def (v : Vector3) (s : ℝ) :
    v * s = ⟨v.x * s, v.y * s, v.z * s⟩ := rfl

theorem invDir_of_small {d : ℝ} (h : |d| < 1e-8) : invDirComponent d = 1e8 := by
  simp [invDirComponent, h]

theorem invDir_of_large {d : ℝ} (h : ¬ |d| < 1e-8) : invDirComponent d = 1 / d := by
  simp [invDirComponent, h]

theorem update_basis_pitch (c : Camera) : c.update_basis_vectors.pitch = c.pitch := rfl

theorem update_basis_yaw (c : Camera) : c.update_basis_vectors.yaw = c.yaw := rfl

theorem pitch_interval_op (c : Camera) (op : CamOp)
    (h : -(Real.pi / 2) ≤ c.pitch ∧ c.pitch ≤ Real.pi / 2) :
    -(Real.pi / 2) ≤ (applyCamOp c op).pitch ∧ (applyCamOp c op).pitch ≤ Real.pi / 2 := by
  have hpi : (3 : ℝ) < Real.pi := Real.pi_gt_three
  cases op with
  | rotate dy dp =>
    simp only [applyCamOp, Camera.rotate, update_basis_pitch]
    constructor
    · have : (-1.5 : ℝ) ≤ min (max (c.pitch + dp) (-1.5)) 1.5 :=
        le_min (le_max_right _ _) (by linarith)
      linarith
    · have : min (max (c.pitch + dp) (-1.5)) 1.5 ≤ 1.5 := min_le_right _ _
      linarith
  | moveForward d => simpa only [applyCamOp, Camera.move_forward, update_basis_pitch] using h
  | moveRight d => simpa only [applyCamOp, Camera.move_right, update_basis_pitch] using h
  | moveUp d => simpa only [applyCamOp, Camera.move_up, update_basis_pitch] using h

theorem pitch_interval_ops (ops : List CamOp) (c : Camera)
    (h : -(Real.pi / 2) ≤ c.pitch ∧ c.pitch ≤ Real.pi / 2) :
    -(Real.pi / 2) ≤ (applyCamOps c ops).pitch ∧ (applyCamOps c ops).pitch ≤ Real.pi / 2 := by
  induction ops generalizing c with
  | nil => simpa [applyCamOps] using h
  | cons op rest ih =>
    simpa [applyCamOps] using ih (applyCamOp c op) (pitch_interval_op c op h)

/-- C6 [corrected]: the guarded reciprocal substitution of the slab test.
When a direction component has magnitude below 1e-8 the substituted value
is the constant 1e8: finite and nonzero, so the slab arithmetic never
divides by zero, but — contrary to the claim — it does not carry the sign
of the component; moreover the reciprocal is nonzero for every component. -/
theorem C6_inv_dir_guard (d : ℝ) :
    (|d| < 1e-8 → invDirComponent d = 1e8) ∧ invDirComponent d ≠ 0 := by
  constructor
  · exact fun h => invDir_of_small h
  · by_cases h : |d| < 1e-8
    · rw [invDir_of_small h]; norm_num
    · have hd : d ≠ 0 := by
        intro h0
        rw [h0] at h
        simp at h
        norm_num at h
      rw [invDir_of_large h]
      exact one_div_ne_zero hd

/-- Witness for C6_inv_dir_guard at the concrete component 0. -/
theorem C6_inv_dir_guard_witness : invDirComponent 0 = 1e8 ∧ invDirComponent 0 ≠ 0 :=
  ⟨(C6_inv_dir_guard 0).1 (by norm_num), (C6_inv_dir_guard 0).2⟩

/-- C6 counterexample: for the direction component -1e-9, whose magnitude
is below 1e-8, the guarded reciprocal is +1e8 — a positive value for a
negative component — and in particular not the sign-carrying -1e8 the
claim describes. -/
theorem C6_counterexample :
    invDirComponent (-(1e-9) : ℝ) = 1e8 ∧ (-(1e-9) : ℝ) < 0 ∧
      invDirComponent (-(1e-9) : ℝ) ≠ -(1e8) := by
  have h : |(-(1e-9) : ℝ)| < 1e-8 := by
    rw [abs_neg, abs_of_nonneg (by norm_num)]
    norm_num
  refine ⟨invDir_of_small h, by norm_num, ?_⟩
  rw [invDir_of_small h]
  norm_num

theorem length_eval {v : Vector3} {L : ℝ} (h0 : 0 ≤ L)
    (h : v.x * v.x + v.y * v.y + v.z * v.z = L * L) : v.length = L := by
  rw [Vector3.length, Vector3.dot, h, show L * L = L ^ 2 by ring]
  exact Real.sqrt_sq h0

theorem probe_ray_intersect (a0 a1 : ℝ) :
    (probeCube a0 a1).ray_intersect ⟨0, 5, 0⟩ ⟨0, -1, 0⟩ =
      Intersect.mkHit ⟨0, 1, 0⟩ ⟨0, 1, 0⟩ 4 (probeMaterial a0 a1) := by
  simp only [probeCube, Cube.ray_intersect]
  rw [invDir_of_small (by norm_num), invDir_of_large (by norm_num)]
  norm_num [min_def, max_def, Cube.hit_record, slab_normal, Cube.calculate_uv,
    Cube.sample_texture, Intersect.mkHit, probeMaterial]

theorem edge_ray_intersect :
    (Cube.mk ⟨0, 0, 0⟩ 2 (probeMaterial 0.9 0.1) none).ray_intersect
      ⟨1 - 1e-7, 2, 0⟩ ⟨0, -1, 0⟩ =
      Intersect.mkHit ⟨1 - 1e-7, 1, 0⟩ ⟨1, 0, 0⟩ 1 (probeMaterial 0.9 0.1) := by
  simp only [Cube.ray_intersect]
  rw [invDir_of_small (by norm_num), invDir_of_large (by norm_num)]
  norm_num [min_def, max_def, abs_of_nonneg, Cube.hit_record, slab_normal,
    Cube.calculate_uv, Cube.sample_texture, Intersect.mkHit, probeMaterial]

theorem normalized_probe_view :
    (Vector3.mk 0 5 0 - Vector3.mk 0 1 0).normalized = ⟨0, 1, 0⟩ := by
  have h4 : (Vector3.mk 0 5 0 - Vector3.mk 0 1 0).length = 4 :=
    length_eval (by norm_num) (by norm_num)
  rw [Vector3.normalized, h4]
  norm_num

theorem normalized_probe_reflect :
    (reflect (-(Vector3.mk 0 1 0)) ⟨0, 1, 0⟩).normalized = ⟨0, 1, 0⟩ := by
  have hr : reflect (-(Vector3.mk 0 1 0)) ⟨0, 1, 0⟩ = ⟨0, 1, 0⟩ := by
    simp only [reflect, Vector3.neg_def, Vector3.hmul_def, Vector3.sub_def, Vector3.dot]
    norm_num
  rw [hr]
  have h1 : (Vector3.mk 0 1 0).length = 1 := length_eval (by norm_num) (by norm_num)
  rw [Vector3.normalized, h1]
  norm_num

theorem probe_specular_eval :
    specular_component ⟨0, 5, 0⟩
      (Intersect.mkHit ⟨0, 1, 0⟩ ⟨0, 1, 0⟩ 4 (probeMaterial 0.2 0.3))
      (probeLight 5) ⟨0, 1, 0⟩ 4 (25 / 9) 0 = ⟨5 / 9, 5 / 9, 5 / 9⟩ := by
  have hc : (4 : ℝ) < 8 ∧ (0 : ℕ) = 0 := ⟨by norm_num, rfl⟩
  simp only [specular_component, if_pos hc, Intersect.mkHit]
  rw [normalized_probe_view, normalized_probe_reflect]
  norm_num [light_color_v3, probeLight, Vector3.dot, Vector3.hmul_def, max_def]

theorem shadow_scan_mem (o dir : Vector3) (ld : ℝ) (l : List Cube) :
    shadow_scan o dir ld l = 0 ∨ shadow_scan o dir ld l = 0.8 := by
  induction l with
  | nil => left; rfl
  | cons c t ih =>
    by_cases h : (c.ray_intersect o dir).is_intersecting = true ∧
        (c.ray_intersect o dir).distance < ld - 0.01
    · right; simp only [shadow_scan, if_pos h]
    · simpa only [shadow_scan, if_neg h] using ih

theorem shadow_scan_eq_iff (o dir : Vector3) (ld : ℝ) (l : List Cube) :
    shadow_scan o dir ld l = 0.8 ↔
      ∃ c ∈ l, (c.ray_intersect o dir).is_intersecting = true ∧
        (c.ray_intersect o dir).distance < ld - 0.01 := by
  induction l with
  | nil => simp only [shadow_scan, List.not_mem_nil]; norm_num
  | cons c t ih =>
    by_cases h : (c.ray_intersect o dir).is_intersecting = true ∧
        (c.ray_intersect o dir).distance < ld - 0.01
    · simp only [shadow_scan, if_pos h, List.mem_cons]
      constructor
      · intro _
        exact ⟨c, Or.inl rfl, h⟩
      · intro _
        trivial
    · simp only [shadow_scan, if_neg h, ih, List.mem_cons]
      constructor
      · rintro ⟨c1, hc1, hcond⟩
        exact ⟨c1, Or.inr hc1, hcond⟩
      · rintro ⟨c1, hc1 | hc1, hcond⟩
        · rw [hc1] at hcond
          exact absurd hcond h
        · exact ⟨c1, hc1, hcond⟩

theorem dot_cross_left (a b : Vector3) : a.dot (Vector3.cross a b) = 0 := by
  simp only [Vector3.dot, Vector3.cross]
  ring

theorem dot_cross_right (a b : Vector3) : b.dot (Vector3.cross a b) = 0 := by
  simp only [Vector3.dot, Vector3.cross]
  ring

theorem cross_dot_self (a b : Vector3) :
    (Vector3.cross a b).dot (Vector3.cross a b) =
      a.dot a * b.dot b - (a.dot b) ^ 2 := by
  simp only [Vector3.dot, Vector3.cross]
  ring

theorem dot_comm (a b : Vector3) : a.dot b = b.dot a := by
  simp only [Vector3.dot]
  ring

theorem dot_pos_of_ne_zero {v : Vector3} (h : v ≠ Vector3.zero) : 0 < v.dot v := by
  have hx : 0 ≤ v.x * v.x := mul_self_nonneg _
  have hy : 0 ≤ v.y * v.y := mul_self_nonneg _
  have hz : 0 ≤ v.z * v.z := mul_self_nonneg _
  rcases lt_or_eq_of_le (by simp only [Vector3.dot]; linarith :
      (0 : ℝ) ≤ v.dot v) with hlt | heq
  · exact hlt
  · exfalso
    apply h
    have hdot : v.x * v.x + v.y * v.y + v.z * v.z = 0 := by
      simpa [Vector3.dot] using heq.symm
    have hx0 : v.x = 0 := by
      have : v.x * v.x = 0 := by linarith
      exact mul_self_eq_zero.mp this
    have hy0 : v.y = 0 := by
      have : v.y * v.y = 0 := by linarith
      exact mul_self_eq_zero.mp this
    have hz0 : v.z = 0 := by
      have : v.z * v.z = 0 := by linarith
      exact mul_self_eq_zero.mp this
    cases v
    simp only [Vector3.zero, Vector3.mk.injEq]
    exact ⟨hx0, hy0, hz0⟩

theorem length_normalized {v : Vector3} (h : v ≠ Vector3.zero) :
    v.normalized.length = 1 := by
  have hS : 0 < v.dot v := dot_pos_of_ne_zero h
  have hL : 0 < v.length := Real.sqrt_pos.mpr hS
  have hL2 : v.length * v.length = v.dot v := Real.mul_self_sqrt hS.le
  have hLne : v.length ≠ 0 := ne_of_gt hL
  have hL2x : v.length * v.length = v.x * v.x + v.y * v.y + v.z * v.z := by
    simpa [Vector3.dot] using hL2
  have hdot : v.normalized.dot v.normalized = 1 := by
    simp only [Vector3.normalized, Vector3.dot]
    field_simp
    linear_combination (-1 : ℝ) * hL2x
  rw [Vector3.length, hdot, Real.sqrt_one]

theorem normalized_dot_left (a v : Vector3) :
    a.dot v.normalized = a.dot v / v.length := by
  simp only [Vector3.dot, Vector3.normalized]
  ring

theorem dot_self_of_length {v : Vector3} (h : v.length = 1) : v.dot v = 1 := by
  have h0 : 0 ≤ v.dot v := by
    have hx := mul_self_nonneg v.x
    have hy := mul_self_nonneg v.y
    have hz := mul_self_nonneg v.z
    simp only [Vector3.dot]
    linarith
  have := Real.sqrt_eq_one.mp h
  simpa [Vector3.length] using this

theorem update_basis_ortho (c : Camera)
    (h : Vector3.cross c.update_basis_vectors.forward c.up ≠ Vector3.zero) :
    c.update_basis_vectors.forward =
        ⟨Real.cos c.update_basis_vectors.pitch * Real.cos c.update_basis_vectors.yaw,
          Real.sin c.update_basis_vectors.pitch,
          Real.cos c.update_basis_vectors.pitch * Real.sin c.update_basis_vectors.yaw⟩ ∧
      c.update_basis_vectors.right =
        (Vector3.cross c.update_basis_vectors.forward c.up).normalized ∧
      c.update_basis_vectors.up =
        Vector3.cross c.update_basis_vectors.right c.update_basis_vectors.forward ∧
      c.update_basis_vectors.forward.length = 1 ∧
      c.update_basis_vectors.right.length = 1 ∧
      c.update_basis_vectors.up.length = 1 ∧
      c.update_basis_vectors.forward.dot c.update_basis_vectors.right = 0 ∧
      c.update_basis_vectors.forward.dot c.update_basis_vectors.up = 0 ∧
      c.update_basis_vectors.right.dot c.update_basis_vectors.up = 0 := by
  have hff : c.update_basis_vectors.forward.dot c.update_basis_vectors.forward = 1 := by
    show (Real.cos c.pitch * Real.cos c.yaw) * (Real.cos c.pitch * Real.cos c.yaw) +
      Real.sin c.pitch * Real.sin c.pitch +
      (Real.cos c.pitch * Real.sin c.yaw) * (Real.cos c.pitch * Real.sin c.yaw) = 1
    linear_combination (Real.cos c.pitch) ^ 2 * Real.sin_sq_add_cos_sq c.yaw +
      Real.sin_sq_add_cos_sq c.pitch
  have hflen : c.update_basis_vectors.forward.length = 1 := by
    rw [Vector3.length, hff, Real.sqrt_one]
  have hcross : Vector3.cross c.update_basis_vectors.forward c.up ≠ Vector3.zero := h
  have hrdef : c.update_basis_vectors.right =
      (Vector3.cross c.update_basis_vectors.forward c.up).normalized := rfl
  have hrlen : c.update_basis_vectors.right.length = 1 := by
    rw [hrdef]
    exact length_normalized hcross
  have hfr : c.update_basis_vectors.forward.dot c.update_basis_vectors.right = 0 := by
    rw [hrdef, normalized_dot_left, dot_cross_left, zero_div]
  have hrr : c.update_basis_vectors.right.dot c.update_basis_vectors.right = 1 :=
    dot_self_of_length hrlen
  have hudef : c.update_basis_vectors.up =
      Vector3.cross c.update_basis_vectors.right c.update_basis_vectors.forward := rfl
  have huu : c.update_basis_vectors.up.dot c.update_basis_vectors.up = 1 := by
    rw [hudef, cross_dot_self, hrr, hff,
      show c.update_basis_vectors.right.dot c.update_basis_vectors.forward = 0 from
        (dot_comm _ _).symm.trans hfr]
    norm_num
  have hulen : c.update_basis_vectors.up.length = 1 := by
    rw [Vector3.length, huu, Real.sqrt_one]
  have hfu : c.update_basis_vectors.forward.dot c.update_basis_vectors.up = 0 := by
    rw [hudef]
    exact dot_cross_right _ _
  have hru : c.update_basis_vectors.right.dot c.update_basis_vectors.up = 0 := by
    rw [hudef]
    exact dot_cross_left _ _
  exact ⟨rfl, hrdef, hudef, hflen, hrlen, hulen, hfr, hfu, hru⟩

/-- C3 [corrected]: after every camera operation (rotate, move_forward,
move_right, move_up, and construction) whose recomputed forward direction
is not parallel to the stored up vector, the derived basis is exactly
orthonormal in this real-number model and forward follows the pitch/yaw
formula; however right is derived as normalize(forward x up) from the
camera's CURRENT up vector — which is the world up only at construction
and drifts afterwards — not from the fixed world up vector of the claim. -/
theorem C3_basis_after_operation :
    (∀ (c : Camera) (op : CamOp),
      Vector3.cross (applyCamOp c op).forward c.up ≠ Vector3.zero →
      ((applyCamOp c op).forward =
          ⟨Real.cos (applyCamOp c op).pitch * Real.cos (applyCamOp c op).yaw,
            Real.sin (applyCamOp c op).pitch,
            Real.cos (applyCamOp c op).pitch * Real.sin (applyCamOp c op).yaw⟩ ∧
        (applyCamOp c op).right =
          (Vector3.cross (applyCamOp c op).forward c.up).normalized ∧
        (applyCamOp c op).up =
          Vector3.cross (applyCamOp c op).right (applyCamOp c op).forward ∧
        (applyCamOp c op).forward.length = 1 ∧
        (applyCamOp c op).right.length = 1 ∧
        (applyCamOp c op).up.length = 1 ∧
        (applyCamOp c op).forward.dot (applyCamOp c op).right = 0 ∧
        (applyCamOp c op).forward.dot (applyCamOp c op).up = 0 ∧
        (applyCamOp c op).right.dot (applyCamOp c op).up = 0)) ∧
    (∀ eye center up : Vector3,
      Vector3.cross (Camera.new eye center up).forward up ≠ Vector3.zero →
      ((Camera.new eye center up).forward =
          ⟨Real.cos (Camera.new eye center up).pitch * Real.cos (Camera.new eye center up).yaw,
            Real.sin (Camera.new eye center up).pitch,
            Real.cos (Camera.new eye center up).pitch * Real.sin (Camera.new eye center up).yaw⟩ ∧
        (Camera.new eye center up).right =
          (Vector3.cross (Camera.new eye center up).forward up).normalized ∧
        (Camera.new eye center up).up =
          Vector3.cross (Camera.new eye center up).right (Camera.new eye center up).forward ∧
        (Camera.new eye center up).forward.length = 1 ∧
        (Camera.new eye center up).right.length = 1 ∧
        (Camera.new eye center up).up.length = 1 ∧
        (Camera.new eye center up).forward.dot (Camera.new eye center up).right = 0 ∧
        (Camera.new eye center up).forward.dot (Camera.new eye center up).up = 0 ∧
        (Camera.new eye center up).right.dot (Camera.new eye center up).up = 0)) := by
  constructor
  · intro c op h
    cases op with
    | rotate dy dp => exact update_basis_ortho _ h
    | moveForward d => exact update_basis_ortho _ h
    | moveRight d => exact update_basis_ortho _ h
    | moveUp d => exact update_basis_ortho _ h
  · intro eye center up h
    exact update_basis_ortho _ h

/-- Witness for C3_basis_after_operation: a forward move of the downward
probe camera, whose forward vector (1,0,0) after the basis rebuild is not
parallel to its up vector (0,1,0). -/
theorem C3_basis_after_operation_witness :
    (applyCamOp probeCamera (CamOp.moveForward 1)).forward =
        ⟨Real.cos (applyCamOp probeCamera (CamOp.moveForward 1)).pitch *
            Real.cos (applyCamOp probeCamera (CamOp.moveForward 1)).yaw,
          Real.sin (applyCamOp probeCamera (CamOp.moveForward 1)).pitch,
          Real.cos (applyCamOp probeCamera (CamOp.moveForward 1)).pitch *
            Real.sin (applyCamOp probeCamera (CamOp.moveForward 1)).yaw⟩ ∧
      (applyCamOp probeCamera (CamOp.moveForward 1)).right =
        (Vector3.cross (applyCamOp probeCamera (CamOp.moveForward 1)).forward
          probeCamera.up).normalized ∧
      (applyCamOp probeCamera (CamOp.moveForward 1)).up =
        Vector3.cross (applyCamOp probeCamera (CamOp.moveForward 1)).right
          (applyCamOp probeCamera (CamOp.moveForward 1)).forward ∧
      (applyCamOp probeCamera (CamOp.moveForward 1)).forward.length = 1 ∧
      (applyCamOp probeCamera (CamOp.moveForward 1)).right.length = 1 ∧
      (applyCamOp probeCamera (CamOp.moveForward 1)).up.length = 1 ∧
      (applyCamOp probeCamera (CamOp.moveForward 1)).forward.dot
        (applyCamOp probeCamera (CamOp.moveForward 1)).right = 0 ∧
      (applyCamOp probeCamera (CamOp.moveForward 1)).forward.dot
        (applyCamOp probeCamera (CamOp.moveForward 1)).up = 0 ∧
      (applyCamOp probeCamera (CamOp.moveForward 1)).right.dot
        (applyCamOp probeCamera (CamOp.moveForward 1)).up = 0 :=
  C3_basis_after_operation.1 probeCamera (CamOp.moveForward 1) (by
    have hfwd : (applyCamOp probeCamera (CamOp.moveForward 1)).forward = ⟨1, 0, 0⟩ := by
      simp only [applyCamOp, Camera.move_forward, Camera.update_basis_vectors, probeCamera]
      norm_num
    rw [hfwd]
    simp only [probeCamera, Vector3.cross, Vector3.zero, ne_eq, Vector3.mk.injEq]
    norm_num)

theorem sqrt_two_mul_self : Real.sqrt 2 * Real.sqrt 2 = 2 :=
  Real.mul_self_sqrt (by norm_num)

theorem sqrt_three_mul_self : Real.sqrt 3 * Real.sqrt 3 = 3 :=
  Real.mul_self_sqrt (by norm_num)

theorem sqrt_two_pos : (0 : ℝ) < Real.sqrt 2 := Real.sqrt_pos.mpr (by norm_num)

theorem sqrt_three_pos : (0 : ℝ) < Real.sqrt 3 := Real.sqrt_pos.mpr (by norm_num)

theorem cam_step1 :
    Camera.new ⟨0, 0, 0⟩ ⟨1, 0, 0⟩ ⟨0, 1, 0⟩ =
      ⟨⟨0, 0, 0⟩, ⟨1, 0, 0⟩, ⟨0, 1, 0⟩, ⟨1, 0, 0⟩, ⟨0, 0, 1⟩, 0, 0⟩ := by
  have hlen : (Vector3.mk (1 - 0) (0 - 0) (0 - 0)).length = 1 :=
    length_eval (by norm_num) (by norm_num)
  have hlen2 : (Vector3.mk 0 0 1).length = 1 := length_eval (by norm_num) (by norm_num)
  simp only [Camera.new, Camera.update_basis_vectors, Vector3.normalized,
    Vector3.sub_def, hlen]
  norm_num [atan2, Real.arctan_zero, Real.arcsin_zero, Real.cos_zero, Real.sin_zero,
    Vector3.cross, Vector3.add_def, Camera.mk.injEq, Vector3.mk.injEq, hlen2]

theorem pi_div_four_clamp : min (max (0 + Real.pi / 4) (-1.5)) 1.5 = Real.pi / 4 := by
  have h1 : Real.pi < 3.15 := Real.pi_lt_315
  have h2 : (3 : ℝ) < Real.pi := Real.pi_gt_three
  rw [max_eq_left (by linarith), min_eq_left (by linarith)]
  norm_num

theorem cam_step2 :
    (Camera.mk ⟨0, 0, 0⟩ ⟨1, 0, 0⟩ ⟨0, 1, 0⟩ ⟨1, 0, 0⟩ ⟨0, 0, 1⟩ 0 0).rotate
        0 (Real.pi / 4) =
      ⟨⟨0, 0, 0⟩, ⟨Real.sqrt 2 / 2, Real.sqrt 2 / 2, 0⟩,
        ⟨-(Real.sqrt 2 / 2), Real.sqrt 2 / 2, 0⟩,
        ⟨Real.sqrt 2 / 2, Real.sqrt 2 / 2, 0⟩, ⟨0, 0, 1⟩, 0, Real.pi / 4⟩ := by
  have hlen : (Vector3.mk 0 0 (Real.sqrt 2 / 2)).length = Real.sqrt 2 / 2 :=
    length_eval (by positivity) (by ring)
  have hdiv : Real.sqrt 2 / 2 / (Real.sqrt 2 / 2) = 1 := div_self (by positivity)
  simp only [Camera.rotate, pi_div_four_clamp, Camera.update_basis_vectors]
  norm_num [Real.cos_pi_div_four, Real.sin_pi_div_four, Vector3.cross,
    Vector3.add_def, Vector3.normalized, Camera.mk.injEq, Vector3.mk.injEq,
    hlen, hdiv]

theorem cam_step3_right :
    ((Camera.mk ⟨0, 0, 0⟩ ⟨Real.sqrt 2 / 2, Real.sqrt 2 / 2, 0⟩
        ⟨-(Real.sqrt 2 / 2), Real.sqrt 2 / 2, 0⟩
        ⟨Real.sqrt 2 / 2, Real.sqrt 2 / 2, 0⟩ ⟨0, 0, 1⟩ 0 (Real.pi / 4)).rotate
        (Real.pi / 2) 0).right =
      (Vector3.mk (-(1 / 2)) (-(1 / 2)) (1 / 2)).normalized := by
  have hclamp : min (max (Real.pi / 4 + 0) (-1.5)) 1.5 = Real.pi / 4 := by
    have := pi_div_four_clamp
    rw [show Real.pi / 4 + 0 = 0 + Real.pi / 4 by ring]
    exact this
  simp only [Camera.rotate, hclamp, Camera.update_basis_vectors]
  norm_num [Real.cos_pi_div_four, Real.sin_pi_div_four, Real.cos_pi_div_two,
    Real.sin_pi_div_two, Vector3.cross]
  congr 1
  simp only [Vector3.mk.injEq]
  refine ⟨?_, ?_, ?_⟩
  · linear_combination (-(1 : ℝ)/4) * sqrt_two_mul_self
  · linear_combination (-(1 : ℝ)/4) * sqrt_two_mul_self
  · linear_combination ((1 : ℝ)/4) * sqrt_two_mul_self

theorem cam_step3_forward :
    ((Camera.mk ⟨0, 0, 0⟩ ⟨Real.sqrt 2 / 2, Real.sqrt 2 / 2, 0⟩
        ⟨-(Real.sqrt 2 / 2), Real.sqrt 2 / 2, 0⟩
        ⟨Real.sqrt 2 / 2, Real.sqrt 2 / 2, 0⟩ ⟨0, 0, 1⟩ 0 (Real.pi / 4)).rotate
        (Real.pi / 2) 0).forward =
      ⟨0, Real.sqrt 2 / 2, Real.sqrt 2 / 2⟩ := by
  have hclamp : min (max (Real.pi / 4 + 0) (-1.5)) 1.5 = Real.pi / 4 := by
    rw [show Real.pi / 4 + 0 = 0 + Real.pi / 4 by ring]
    exact pi_div_four_clamp
  simp only [Camera.rotate, hclamp, Camera.update_basis_vectors]
  norm_num [Real.cos_pi_div_four, Real.sin_pi_div_four, Real.cos_pi_div_two,
    Real.sin_pi_div_two, Vector3.mk.injEq]

/-- C3 counterexample: starting from a camera built looking along +X with
world up (0,1,0), pitching up by pi/4 and then yawing by pi/2 yields a
camera whose right vector has a nonzero y component, while
normalize(forward x world_up) has y component 0 — the source derives
right from the drifted stored up vector, not from the fixed world up. -/
theorem C3_counterexample :
    (((Camera.new ⟨0, 0, 0⟩ ⟨1, 0, 0⟩ ⟨0, 1, 0⟩).rotate 0 (Real.pi / 4)).rotate
        (Real.pi / 2) 0).right ≠
      (Vector3.cross
        ((((Camera.new ⟨0, 0, 0⟩ ⟨1, 0, 0⟩ ⟨0, 1, 0⟩).rotate 0 (Real.pi / 4)).rotate
          (Real.pi / 2) 0).forward) ⟨0, 1, 0⟩).normalized := by
  rw [cam_step1, cam_step2, cam_step3_right, cam_step3_forward]
  have hcross : Vector3.cross ⟨0, Real.sqrt 2 / 2, Real.sqrt 2 / 2⟩ ⟨0, 1, 0⟩ =
      ⟨-(Real.sqrt 2 / 2), 0, 0⟩ := by
    simp only [Vector3.cross, Vector3.mk.injEq]
    norm_num
  rw [hcross]
  have hlen3 : (Vector3.mk (-(1 / 2)) (-(1 / 2)) (1 / 2)).length = Real.sqrt 3 / 2 :=
    length_eval (by positivity) (by nlinarith [sqrt_three_mul_self])
  intro heq
  have hy := congrArg Vector3.y heq
  simp only [Vector3.normalized, hlen3] at hy
  have : -(1 / 2) / (Real.sqrt 3 / 2) = 0 := by
    rw [hy]
    norm_num
  have h3 : (0 : ℝ) < Real.sqrt 3 / 2 := by positivity
  have := div_eq_zero_iff.mp this
  rcases this with h | h
  · norm_num at h
  · exact absurd h (by positivity)

theorem slab_normal_mem (half_size : ℝ) (local_point : Vector3) :
    slab_normal half_size local_point = ⟨1, 0, 0⟩ ∨
    slab_normal half_size local_point = ⟨-1, 0, 0⟩ ∨
    slab_normal half_size local_point = ⟨0, 1, 0⟩ ∨
    slab_normal half_size local_point = ⟨0, -1, 0⟩ ∨
    slab_normal half_size local_point = ⟨0, 0, 1⟩ ∨
    slab_normal half_size local_point = ⟨0, 0, -1⟩ := by
  simp only [slab_normal]
  split_ifs <;> tauto

theorem hit_record_normal (c : Cube) (O D : Vector3) (t : ℝ) :
    (c.hit_record O D t).normal = slab_normal (c.size / 2) (O + D * t - c.center) := rfl

set_option maxHeartbeats 1000000 in
theorem ray_intersect_shape (c : Cube) (O D : Vector3) :
    c.ray_intersect O D = Intersect.empty ∨
    ∃ t, c.ray_intersect O D = c.hit_record O D t := by
  simp only [Cube.ray_intersect]
  split_ifs <;> first | (left; rfl) | (right; exact ⟨_, rfl⟩)

/-- C5 [corrected]: every hit reported by the cube intersection carries
one of the six axis-aligned unit normals; however the source selects it by
testing the hit point against the six face planes in the order +X, -X,
+Y, -Y, +Z with -Z as fallback, using a 1e-6 proximity threshold, rather
than by the claimed largest-component rule, and the two disagree when the
hit point lies within 1e-6 of a face plane of an earlier axis. -/
theorem C5_normal_axis_aligned (c : Cube) (O D : Vector3)
    (h : (c.ray_intersect O D).is_intersecting = true) :
    (c.ray_intersect O D).normal = ⟨1, 0, 0⟩ ∨
    (c.ray_intersect O D).normal = ⟨-1, 0, 0⟩ ∨
    (c.ray_intersect O D).normal = ⟨0, 1, 0⟩ ∨
    (c.ray_intersect O D).normal = ⟨0, -1, 0⟩ ∨
    (c.ray_intersect O D).normal = ⟨0, 0, 1⟩ ∨
    (c.ray_intersect O D).normal = ⟨0, 0, -1⟩ := by
  rcases ray_intersect_shape c O D with he | ⟨t, he⟩
  · rw [he] at h
    simp [Intersect.empty] at h
  · rw [he, hit_record_normal]
    exact slab_normal_mem _ _

/-- Witness for C5_normal_axis_aligned at the probe cube hit from above. -/
theorem C5_normal_axis_aligned_witness :
    ((probeCube 0.9 0.1).ray_intersect ⟨0, 5, 0⟩ ⟨0, -1, 0⟩).normal = ⟨1, 0, 0⟩ ∨
    ((probeCube 0.9 0.1).ray_intersect ⟨0, 5, 0⟩ ⟨0, -1, 0⟩).normal = ⟨-1, 0, 0⟩ ∨
    ((probeCube 0.9 0.1).ray_intersect ⟨0, 5, 0⟩ ⟨0, -1, 0⟩).normal = ⟨0, 1, 0⟩ ∨
    ((probeCube 0.9 0.1).ray_intersect ⟨0, 5, 0⟩ ⟨0, -1, 0⟩).normal = ⟨0, -1, 0⟩ ∨
    ((probeCube 0.9 0.1).ray_intersect ⟨0, 5, 0⟩ ⟨0, -1, 0⟩).normal = ⟨0, 0, 1⟩ ∨
    ((probeCube 0.9 0.1).ray_intersect ⟨0, 5, 0⟩ ⟨0, -1, 0⟩).normal = ⟨0, 0, -1⟩ :=
  C5_normal_axis_aligned _ _ _ (by rw [probe_ray_intersect]; rfl)

/-- C5 counterexample: a vertical ray entering the top face of the origin
cube at x = 1 - 1e-7 (within 1e-6 of the +X face plane) is assigned the
normal (1,0,0) by the source, while the largest-|L_i| rule of the claim
selects (0,1,0), since |L.y| = 1 exceeds |L.x| = 1 - 1e-7 at that hit. -/
theorem C5_counterexample :
    ((Cube.mk ⟨0, 0, 0⟩ 2 (probeMaterial 0.9 0.1) none).ray_intersect
        ⟨1 - 1e-7, 2, 0⟩ ⟨0, -1, 0⟩).is_intersecting = true ∧
    ((Cube.mk ⟨0, 0, 0⟩ 2 (probeMaterial 0.9 0.1) none).ray_intersect
        ⟨1 - 1e-7, 2, 0⟩ ⟨0, -1, 0⟩).normal = ⟨1, 0, 0⟩ ∧
    claimed_normal
        (((Cube.mk ⟨0, 0, 0⟩ 2 (probeMaterial 0.9 0.1) none).ray_intersect
          ⟨1 - 1e-7, 2, 0⟩ ⟨0, -1, 0⟩).point - ⟨0, 0, 0⟩) = ⟨0, 1, 0⟩ ∧
    (⟨1, 0, 0⟩ : Vector3) ≠ ⟨0, 1, 0⟩ := by
  rw [edge_ray_intersect]
  refine ⟨rfl, rfl, ?_, by simp [Vector3.mk.injEq]⟩
  simp only [Intersect.mkHit, Vector3.sub_def, claimed_normal]
  norm_num [abs_of_nonneg]

/-- C2 [corrected]: whenever the specular contribution computed by
cast_ray is nonzero, the ray is primary (depth 0), the light is closer
than 8, and the contribution equals
light_rgb * max(V.R, 0)^20 * I * 0.2 — a hardwired Phong exponent of 20
and an extra 0.2 scale, not the exponent stored in the material. -/
theorem C2_specular_shape (ray_origin : Vector3) (intersect : Intersect) (light : Light)
    (light_dir : Vector3) (light_distance light_intensity : ℝ) (depth : ℕ)
    (h : specular_component ray_origin intersect light light_dir light_distance
      light_intensity depth ≠ Vector3.zero) :
    depth = 0 ∧ light_distance < 8 ∧
    specular_component ray_origin intersect light light_dir light_distance
        light_intensity depth =
      light_color_v3 light *
        ((max ((ray_origin - intersect.point).normalized.dot
            ((reflect (-light_dir) intersect.normal).normalized)) 0) ^ (20 : ℕ) *
          light_intensity * 0.2) := by
  by_cases hc : light_distance < 8 ∧ depth = 0
  · exact ⟨hc.2, hc.1, by simp only [specular_component, if_pos hc]⟩
  · exact absurd (by simp only [specular_component, if_neg hc]) h

/-- Witness for C2_specular_shape at the probe hit with the light 4 units
above the surface. -/
theorem C2_specular_shape_witness :
    (0 : ℕ) = 0 ∧ (4 : ℝ) < 8 ∧
    specular_component ⟨0, 5, 0⟩
        (Intersect.mkHit ⟨0, 1, 0⟩ ⟨0, 1, 0⟩ 4 (probeMaterial 0.2 0.3))
        (probeLight 5) ⟨0, 1, 0⟩ 4 (25 / 9) 0 =
      light_color_v3 (probeLight 5) *
        ((max ((Vector3.mk 0 5 0 -
            (Intersect.mkHit ⟨0, 1, 0⟩ ⟨0, 1, 0⟩ 4 (probeMaterial 0.2 0.3)).point).normalized.dot
            ((reflect (-(Vector3.mk 0 1 0))
              (Intersect.mkHit ⟨0, 1, 0⟩ ⟨0, 1, 0⟩ 4 (probeMaterial 0.2 0.3)).normal).normalized)) 0)
          ^ (20 : ℕ) * (25 / 9) * 0.2) :=
  C2_specular_shape _ _ _ _ _ _ _ (by
    rw [probe_specular_eval]
    simp only [Vector3.zero, ne_eq, Vector3.mk.injEq, not_and]
    norm_num)

/-- C2 counterexample: at a concrete primary-ray hit (probe cube from
above, light 4 units away, effective light scale 25/9) the computed
specular contribution is (5/9, 5/9, 5/9), which is nonzero yet differs
from the claimed light_rgb * max(V.R,0)^(M.specular) * I = (25/9, ...)
for the hit material whose Phong exponent field is 32. -/
theorem C2_counterexample :
    specular_component ⟨0, 5, 0⟩
        (Intersect.mkHit ⟨0, 1, 0⟩ ⟨0, 1, 0⟩ 4 (probeMaterial 0.2 0.3))
        (probeLight 5) ⟨0, 1, 0⟩ 4 (25 / 9) 0 ≠ Vector3.zero ∧
    specular_component ⟨0, 5, 0⟩
        (Intersect.mkHit ⟨0, 1, 0⟩ ⟨0, 1, 0⟩ 4 (probeMaterial 0.2 0.3))
        (probeLight 5) ⟨0, 1, 0⟩ 4 (25 / 9) 0 ≠
      light_color_v3 (probeLight 5) *
        ((max ((Vector3.mk 0 5 0 -
            (Intersect.mkHit ⟨0, 1, 0⟩ ⟨0, 1, 0⟩ 4 (probeMaterial 0.2 0.3)).point).normalized.dot
            ((reflect (-(Vector3.mk 0 1 0))
              (Intersect.mkHit ⟨0, 1, 0⟩ ⟨0, 1, 0⟩ 4 (probeMaterial 0.2 0.3)).normal).normalized)) 0)
          ^ ((Intersect.mkHit ⟨0, 1, 0⟩ ⟨0, 1, 0⟩ 4 (probeMaterial 0.2 0.3)).material.specular) *
          (25 / 9)) := by
  rw [probe_specular_eval]
  constructor
  · simp only [Vector3.zero, ne_eq, Vector3.mk.injEq, not_and]
    norm_num
  · simp only [Intersect.mkHit]
    rw [normalized_probe_view, normalized_probe_reflect]
    simp only [Vector3.dot, probeMaterial]
    norm_num [light_color_v3, probeLight, Vector3.hmul_def, Real.one_rpow,
      Vector3.mk.injEq]

theorem closest_hit_step_culled {O D : Vector3} {cam : Camera} {fov aspect : ℝ}
    (acc : Intersect) {c : Cube}
    (hf : is_in_frustum c.center c.size cam fov aspect = false) :
    closest_hit_step O D cam fov aspect acc c = acc := by
  simp [closest_hit_step, hf]

theorem closest_hit_step_take {O D : Vector3} {cam : Camera} {fov aspect : ℝ}
    (acc : Intersect) {c : Cube}
    (hf : is_in_frustum c.center c.size cam fov aspect = true)
    (hc : (c.ray_intersect O D).is_intersecting = true ∧
      (acc.is_intersecting = false ∨ (c.ray_intersect O D).distance < acc.distance)) :
    closest_hit_step O D cam fov aspect acc c = c.ray_intersect O D := by
  simp only [closest_hit_step]
  rw [if_neg (by simp [hf]), if_pos hc]

theorem closest_hit_step_skip {O D : Vector3} {cam : Camera} {fov aspect : ℝ}
    (acc : Intersect) {c : Cube}
    (hf : is_in_frustum c.center c.size cam fov aspect = true)
    (hc : ¬((c.ray_intersect O D).is_intersecting = true ∧
      (acc.is_intersecting = false ∨ (c.ray_intersect O D).distance < acc.distance))) :
    closest_hit_step O D cam fov aspect acc c = acc := by
  simp only [closest_hit_step]
  rw [if_neg (by simp [hf]), if_neg hc]

theorem scene_foldl_spec (O D : Vector3) (cam : Camera) (fov aspect : ℝ)
    (l : List Cube) (acc : Intersect) :
    (l.foldl (closest_hit_step O D cam fov aspect) acc = acc ∨
      ∃ c ∈ l, is_in_frustum c.center c.size cam fov aspect = true ∧
        (c.ray_intersect O D).is_intersecting = true ∧
        l.foldl (closest_hit_step O D cam fov aspect) acc = c.ray_intersect O D) ∧
    (acc.is_intersecting = true →
      (l.foldl (closest_hit_step O D cam fov aspect) acc).is_intersecting = true ∧
      (l.foldl (closest_hit_step O D cam fov aspect) acc).distance ≤ acc.distance) ∧
    (∀ c ∈ l, is_in_frustum c.center c.size cam fov aspect = true →
      (c.ray_intersect O D).is_intersecting = true →
      (l.foldl (closest_hit_step O D cam fov aspect) acc).is_intersecting = true ∧
      (l.foldl (closest_hit_step O D cam fov aspect) acc).distance ≤
        (c.ray_intersect O D).distance) := by
  induction l generalizing acc with
  | nil =>
    refine ⟨Or.inl rfl, fun h => ⟨h, le_refl _⟩, ?_⟩
    intro c hc
    exact absurd hc (List.not_mem_nil c)
  | cons c t ih =>
    simp only [List.foldl_cons]
    by_cases hf : is_in_frustum c.center c.size cam fov aspect = false
    · rw [closest_hit_step_culled acc hf]
      obtain ⟨h1, h2, h3⟩ := ih acc
      refine ⟨?_, h2, ?_⟩
      · rcases h1 with h | ⟨c1, hc1, hfr, hhit, heq⟩
        · exact Or.inl h
        · exact Or.inr ⟨c1, List.mem_cons_of_mem _ hc1, hfr, hhit, heq⟩
      · intro c1 hc1 hfr hhit
        rcases List.mem_cons.mp hc1 with rfl | hm
        · rw [hf] at hfr
          cases hfr
        · exact h3 c1 hm hfr hhit
    · have hft : is_in_frustum c.center c.size cam fov aspect = true := by
        simpa using hf
      by_cases hc : (c.ray_intersect O D).is_intersecting = true ∧
          (acc.is_intersecting = false ∨ (c.ray_intersect O D).distance < acc.distance)
      · rw [closest_hit_step_take acc hft hc]
        obtain ⟨h1, h2, h3⟩ := ih (c.ray_intersect O D)
        have hray := h2 hc.1
        refine ⟨?_, ?_, ?_⟩
        · rcases h1 with h | ⟨c1, hc1, hfr, hhit, heq⟩
          · exact Or.inr ⟨c, List.mem_cons_self c t, hft, hc.1, h⟩
          · exact Or.inr ⟨c1, List.mem_cons_of_mem _ hc1, hfr, hhit, heq⟩
        · intro hacc
          rcases hc.2 with hfalse | hlt
          · rw [hacc] at hfalse
            cases hfalse
          · exact ⟨hray.1, le_trans hray.2 (le_of_lt hlt)⟩
        · intro c1 hc1 hfr hhit
          rcases List.mem_cons.mp hc1 with rfl | hm
          · exact hray
          · exact h3 c1 hm hfr hhit
      · rw [closest_hit_step_skip acc hft hc]
        obtain ⟨h1, h2, h3⟩ := ih acc
        refine ⟨?_, h2, ?_⟩
        · rcases h1 with h | ⟨c1, hc1, hfr, hhit, heq⟩
          · exact Or.inl h
          · exact Or.inr ⟨c1, List.mem_cons_of_mem _ hc1, hfr, hhit, heq⟩
        · intro c1 hc1 hfr hhit
          rcases List.mem_cons.mp hc1 with rfl | hm
          · have hB : ¬(acc.is_intersecting = false ∨
                (c1.ray_intersect O D).distance < acc.distance) :=
              fun hb => hc ⟨hhit, hb⟩
            obtain ⟨hne, hnlt⟩ := not_or.mp hB
            have hacc : acc.is_intersecting = true := by simpa using hne
            have hr := h2 hacc
            exact ⟨hr.1, le_trans hr.2 (not_lt.mp hnlt)⟩
          · exact h3 c1 hm hfr hhit

theorem scene_closest_hit_eq_foldl (objects : List Cube) (O D : Vector3)
    (cam : Camera) (fov aspect : ℝ) :
    scene_closest_hit objects O D cam fov aspect =
      objects.foldl (closest_hit_step O D cam fov aspect) Intersect.empty := rfl

theorem cast_ray_sky (O D : Vector3) (objects : List Cube) (light : Light)
    (depth : ℕ) (cam : Camera) (fov aspect : ℝ)
    (h : (scene_closest_hit objects O D cam fov aspect).is_intersecting = false) :
    cast_ray O D objects light depth cam fov aspect = procedural_sky D := by
  rw [cast_ray.eq_def]
  by_cases hd : depth > MAX_RAY_DEPTH
  · rw [if_pos hd]
  · rw [if_neg hd]
    simp only [h]
    simp

theorem scene_no_hit (objects : List Cube) (O D : Vector3) (cam : Camera)
    (fov aspect : ℝ)
    (hnone : ∀ c ∈ objects, is_in_frustum c.center c.size cam fov aspect = true →
      (c.ray_intersect O D).is_intersecting = false) :
    (scene_closest_hit objects O D cam fov aspect).is_intersecting = false := by
  rcases (scene_foldl_spec O D cam fov aspect objects Intersect.empty).1 with
    h | ⟨c, hc, hfr, hhit, _⟩
  · rw [scene_closest_hit_eq_foldl, h]
    rfl
  · rw [hnone c hc hfr] at hhit
    cases hhit

/-- C1 [corrected]: the closest-hit search of cast_ray is a linear scan
that tracks the minimum intersection distance, but only over the cubes
passing is_in_frustum (within 35 units of the camera eye and not clearly
behind it — the FRUSTUM_CULLING guard is enabled in the source): the hit
kept is an intersection of some frustum-passing cube whose distance is
minimal among frustum-passing intersecting cubes, and if no
frustum-passing cube intersects the ray, the procedural sky color of the
ray direction is returned — even when a culled cube does intersect. -/
theorem C1_closest_hit (objects : List Cube) (O D : Vector3) (light : Light)
    (cam : Camera) (fov aspect : ℝ) :
    ((∀ c ∈ objects, is_in_frustum c.center c.size cam fov aspect = true →
        (c.ray_intersect O D).is_intersecting = false) →
      ∀ depth : ℕ, cast_ray O D objects light depth cam fov aspect = procedural_sky D) ∧
    ((scene_closest_hit objects O D cam fov aspect).is_intersecting = true →
      ∃ c ∈ objects, is_in_frustum c.center c.size cam fov aspect = true ∧
        (c.ray_intersect O D).is_intersecting = true ∧
        scene_closest_hit objects O D cam fov aspect = c.ray_intersect O D) ∧
    (∀ c ∈ objects, is_in_frustum c.center c.size cam fov aspect = true →
      (c.ray_intersect O D).is_intersecting = true →
      (scene_closest_hit objects O D cam fov aspect).is_intersecting = true ∧
      (scene_closest_hit objects O D cam fov aspect).distance ≤
        (c.ray_intersect O D).distance) := by
  obtain ⟨h1, _, h3⟩ := scene_foldl_spec O D cam fov aspect objects Intersect.empty
  refine ⟨?_, ?_, ?_⟩
  · intro hnone depth
    exact cast_ray_sky O D objects light depth cam fov aspect
      (scene_no_hit objects O D cam fov aspect hnone)
  · intro hhit
    rcases h1 with h | ⟨c, hc, hfr, hch, heq⟩
    · rw [scene_closest_hit_eq_foldl, h] at hhit
      cases hhit
    · exact ⟨c, hc, hfr, hch, by rw [scene_closest_hit_eq_foldl, heq]⟩
  · intro c hc hfr hch
    rw [scene_closest_hit_eq_foldl]
    exact h3 c hc hfr hch

theorem far_ray_intersect :
    farCube.ray_intersect ⟨0, 0, 0⟩ ⟨1, 0, 0⟩ =
      Intersect.mkHit ⟨39, 0, 0⟩ ⟨-1, 0, 0⟩ 39 (probeMaterial 0.9 0.1) := by
  simp only [farCube, Cube.ray_intersect]
  rw [invDir_of_large (by norm_num), invDir_of_small (by norm_num)]
  norm_num [min_def, max_def, abs_of_nonneg, Cube.hit_record, slab_normal,
    Cube.calculate_uv, Cube.sample_texture, Intersect.mkHit, probeMaterial]

theorem farCube_culled :
    is_in_frustum farCube.center farCube.size originCamera 1 1 = false := by
  have h40 : (Vector3.mk (40 - 0) (0 - 0) (0 - 0)).length = 40 :=
    length_eval (by norm_num) (by norm_num)
  simp only [is_in_frustum, FRUSTUM_CULLING, farCube, originCamera, Vector3.sub_def]
  rw [if_neg (by simp)]
  rw [if_pos (by rw [h40]; norm_num)]

theorem far_scene_empty :
    scene_closest_hit [farCube] ⟨0, 0, 0⟩ ⟨1, 0, 0⟩ originCamera 1 1 =
      Intersect.empty := by
  rw [scene_closest_hit_eq_foldl, List.foldl_cons, List.foldl_nil]
  exact closest_hit_step_culled Intersect.empty farCube_culled

/-- Witness for C1_closest_hit: in a scene holding only the cube at
(40,0,0), which fails the 35-unit frustum distance test from the origin
camera, the sky fallback fires. -/
theorem C1_closest_hit_witness :
    cast_ray ⟨0, 0, 0⟩ ⟨1, 0, 0⟩ [farCube] (probeLight 5) 0 originCamera 1 1 =
      procedural_sky ⟨1, 0, 0⟩ :=
  (C1_closest_hit [farCube] ⟨0, 0, 0⟩ ⟨1, 0, 0⟩ (probeLight 5) originCamera 1 1).1
    (by
      intro c hc hfr
      rw [List.mem_singleton.mp hc] at hfr
      rw [farCube_culled] at hfr
      cases hfr)
    0

/-- C1 counterexample: the cube at (40,0,0) intersects the ray from the
origin along +X at distance 39, yet the closest-hit search returns no hit
(the cube is frustum-culled, being 40 units from the camera eye) and
cast_ray returns the sky color — refuting the claim that the search scans
all cubes in the scene with no frustum culling. -/
theorem C1_counterexample :
    (farCube.ray_intersect ⟨0, 0, 0⟩ ⟨1, 0, 0⟩).is_intersecting = true ∧
    (scene_closest_hit [farCube] ⟨0, 0, 0⟩ ⟨1, 0, 0⟩ originCamera 1 1).is_intersecting
      = false ∧
    cast_ray ⟨0, 0, 0⟩ ⟨1, 0, 0⟩ [farCube] (probeLight 5) 0 originCamera 1 1 =
      procedural_sky ⟨1, 0, 0⟩ := by
  refine ⟨by rw [far_ray_intersect]; rfl, by rw [far_scene_empty]; rfl, ?_⟩
  apply cast_ray_sky
  rw [far_scene_empty]
  rfl

/-- C4 [corrected]: the shadow value used in the light scale of cast_ray
is the flat 0.1 whenever the light distance is at least 20 (the feeler is
not called at all there), and otherwise the feeler result, which is 0.8
exactly when some cube blocks the offset shadow ray at a distance below
the light distance minus 0.01, and 0 otherwise.  The 0.2 fast path of
cast_shadow requires a distance above 25 and is therefore unreachable
from cast_ray. -/
theorem C4_shadow_used_values (intersect : Intersect) (light : Light)
    (objects : List Cube) :
    (20 ≤ (light.position - intersect.point).length →
      shadow_intensity_term intersect light objects = 0.1) ∧
    ((light.position - intersect.point).length < 20 →
      ((shadow_intensity_term intersect light objects = 0.8 ∨
        shadow_intensity_term intersect light objects = 0) ∧
       (shadow_intensity_term intersect light objects = 0.8 ↔
        ∃ c ∈ objects,
          (c.ray_intersect (offset_origin intersect
              ((light.position - intersect.point).normalized))
            ((light.position - intersect.point).normalized)).is_intersecting = true ∧
          (c.ray_intersect (offset_origin intersect
              ((light.position - intersect.point).normalized))
            ((light.position - intersect.point).normalized)).distance <
            (light.position - intersect.point).length - 0.01))) := by
  constructor
  · intro h
    simp only [shadow_intensity_term]
    rw [if_neg (not_lt.mpr h)]
  · intro h
    have h25 : ¬ (light.position - intersect.point).length > 25 := by
      intro hgt
      linarith
    simp only [shadow_intensity_term, if_pos h, cast_shadow, if_neg h25]
    refine ⟨?_, ?_⟩
    · rcases shadow_scan_mem (offset_origin intersect
          ((light.position - intersect.point).normalized))
          ((light.position - intersect.point).normalized)
          ((light.position - intersect.point).length) objects with h0 | h8
      · right; exact h0
      · left; exact h8
    · exact shadow_scan_eq_iff _ _ _ _

/-- Witness for C4_shadow_used_values: a hit at (0,1,0) with the light at
(0,22,0) has light distance 21, so the value used is the flat 0.1. -/
theorem C4_shadow_used_values_witness :
    shadow_intensity_term ⟨true, ⟨0, 1, 0⟩, ⟨0, 1, 0⟩, 4, ⟨⟨1, 1, 1⟩, 32, ![0.9, 0.1, 0, 0], 1⟩⟩
      ⟨⟨0, 22, 0⟩, ⟨255, 255, 255, 255⟩, 3⟩ [] = 0.1 := by
  apply (C4_shadow_used_values _ _ _).1
  simp only [Vector3.sub_def, Vector3.length, Vector3.dot]
  norm_num
  rw [show (441 : ℝ) = 21 ^ 2 by norm_num, Real.sqrt_sq (by norm_num)]
  norm_num

/-- C4 counterexample: a hit at (0,1,0) with the light at (0,31,0) has
light distance 30, at least 20, so cast_ray uses the shadow value 0.1
without scanning the scene — a value that is none of the claimed 0.8, 0.2
or 0. -/
theorem C4_counterexample :
    shadow_intensity_term ⟨true, ⟨0, 1, 0⟩, ⟨0, 1, 0⟩, 4, ⟨⟨1, 1, 1⟩, 32, ![0.9, 0.1, 0, 0], 1⟩⟩
      ⟨⟨0, 31, 0⟩, ⟨255, 255, 255, 255⟩, 3⟩ [] = 0.1 ∧
    ((0.1 : ℝ) ≠ 0.8 ∧ (0.1 : ℝ) ≠ 0.2 ∧ (0.1 : ℝ) ≠ 0) := by
  refine ⟨?_, by norm_num, by norm_num, by norm_num⟩
  apply (C4_shadow_used_values _ _ _).1
  simp only [Vector3.sub_def, Vector3.length, Vector3.dot]
  norm_num
  rw [show (900 : ℝ) = 30 ^ 2 by norm_num, Real.sqrt_sq (by norm_num)]
  norm_num

theorem abs_y_le_length (v : Vector3) : |v.y| ≤ v.length := by
  rw [Vector3.length]
  have h : v.y ^ 2 ≤ v.dot v := by
    simp only [Vector3.dot]
    nlinarith [mul_self_nonneg v.x, mul_self_nonneg v.z]
  calc |v.y| = Real.sqrt (v.y ^ 2) := (Real.sqrt_sq_eq_abs v.y).symm
  _ ≤ Real.sqrt (v.dot v) := Real.sqrt_le_sqrt h

theorem normalized_y_abs_le_one (v : Vector3) : |v.normalized.y| ≤ 1 := by
  have hnn : (0 : ℝ) ≤ v.length := Real.sqrt_nonneg _
  rcases eq_or_lt_of_le hnn with h0 | hpos
  · simp only [Vector3.normalized, ← h0, div_zero]
    norm_num
  · simp only [Vector3.normalized]
    rw [abs_div, abs_of_pos hpos, div_le_one hpos]
    exact abs_y_le_length v

theorem procedural_sky_bounds (dir : Vector3) :
    (0.1 ≤ (procedural_sky dir).x ∧ (procedural_sky dir).x ≤ 1) ∧
    (0.1 ≤ (procedural_sky dir).y ∧ (procedural_sky dir).y ≤ 1) ∧
    (0.15 ≤ (procedural_sky dir).z ∧ (procedural_sky dir).z ≤ 1) := by
  have hy := abs_le.mp (normalized_y_abs_le_one dir)
  simp only [procedural_sky, Vector3.hmul_def, Vector3.add_def]
  split_ifs with h1 h2 h3
  · have ht : 0 ≤ (dir.normalized.y + 1) * 0.5 := by linarith [hy.1]
    have hk0 : 0 ≤ (dir.normalized.y + 1) * 0.5 / 0.55 := by positivity
    have hk1 : (dir.normalized.y + 1) * 0.5 / 0.55 < 54 / 55 := by
      rw [div_lt_iff (by norm_num : (0 : ℝ) < 0.55)]
      nlinarith [h1]
    refine ⟨⟨?_, ?_⟩, ⟨?_, ?_⟩, ⟨?_, ?_⟩⟩ <;> simp only [] <;> linarith [hk0, hk1]
  · refine ⟨⟨?_, ?_⟩, ⟨?_, ?_⟩, ⟨?_, ?_⟩⟩ <;> norm_num
  · have ht1 : 0.55 ≤ (dir.normalized.y + 1) * 0.5 := by linarith [not_lt.mp h2]
    have hk0 : 0 ≤ ((dir.normalized.y + 1) * 0.5 - 0.55) / 0.25 := by
      apply div_nonneg _ (by norm_num)
      linarith
    have hk1 : ((dir.normalized.y + 1) * 0.5 - 0.55) / 0.25 < 1 := by
      rw [div_lt_iff (by norm_num : (0 : ℝ) < 0.25)]
      nlinarith [h3]
    refine ⟨⟨?_, ?_⟩, ⟨?_, ?_⟩, ⟨?_, ?_⟩⟩ <;> simp only [] <;> linarith [hk0, hk1]
  · refine ⟨⟨?_, ?_⟩, ⟨?_, ?_⟩, ⟨?_, ?_⟩⟩ <;> norm_num

theorem shadow_scan_bounds (o dir : Vector3) (ld : ℝ) (l : List Cube) :
    0 ≤ shadow_scan o dir ld l ∧ shadow_scan o dir ld l ≤ 1 := by
  rcases shadow_scan_mem o dir ld l with h | h <;> rw [h] <;> norm_num

theorem shadow_term_bounds (i : Intersect) (light : Light) (objects : List Cube) :
    0 ≤ shadow_intensity_term i light objects ∧
      shadow_intensity_term i light objects ≤ 1 := by
  simp only [shadow_intensity_term]
  split_ifs with h
  · simp only [cast_shadow]
    split_ifs with h2
    · norm_num
    · exact shadow_scan_bounds _ _ _ objects
  · norm_num

theorem specular_component_nonneg (O : Vector3) (i : Intersect) (light : Light)
    (ld : Vector3) (dist inten : ℝ) (depth : ℕ) (h : 0 ≤ inten) :
    0 ≤ (specular_component O i light ld dist inten depth).x ∧
    0 ≤ (specular_component O i light ld dist inten depth).y ∧
    0 ≤ (specular_component O i light ld dist inten depth).z := by
  simp only [specular_component]
  split_ifs with hc
  · simp only [light_color_v3, Vector3.hmul_def]
    have hp : (0 : ℝ) ≤ (max ((O - i.point).normalized.dot
        ((reflect (-ld) i.normal).normalized)) 0) ^ (20 : ℕ) :=
      pow_nonneg (le_max_right _ _) _
    refine ⟨?_, ?_, ?_⟩ <;>
      exact mul_nonneg (div_nonneg (Nat.cast_nonneg _) (by norm_num))
        (mul_nonneg (mul_nonneg hp h) (by norm_num))
  · simp [Vector3.zero]

theorem sample_texture_nonneg (c : Cube)
    (htex : ∀ tex, c.texture = some tex → ∀ u v : ℝ,
      0 ≤ (tex.sample u v).x ∧ 0 ≤ (tex.sample u v).y ∧ 0 ≤ (tex.sample u v).z)
    (u v : ℝ) :
    0 ≤ (c.sample_texture u v).x ∧ 0 ≤ (c.sample_texture u v).y ∧
      0 ≤ (c.sample_texture u v).z := by
  simp only [Cube.sample_texture]
  cases hT : c.texture with
  | none => norm_num
  | some tex => exact htex tex hT _ _

theorem hit_record_intersecting (c : Cube) (O D : Vector3) (t : ℝ) :
    (c.hit_record O D t).is_intersecting = true := rfl

theorem hit_record_albedo (c : Cube) (O D : Vector3) (t : ℝ) :
    (c.hit_record O D t).material.albedo = c.material.albedo := rfl

theorem hit_record_diffuse_nonneg (c : Cube) (O D : Vector3) (t : ℝ)
    (hd : 0 ≤ c.material.diffuse.x ∧ 0 ≤ c.material.diffuse.y ∧ 0 ≤ c.material.diffuse.z)
    (htex : ∀ tex, c.texture = some tex → ∀ u v : ℝ,
      0 ≤ (tex.sample u v).x ∧ 0 ≤ (tex.sample u v).y ∧ 0 ≤ (tex.sample u v).z) :
    0 ≤ (c.hit_record O D t).material.diffuse.x ∧
    0 ≤ (c.hit_record O D t).material.diffuse.y ∧
    0 ≤ (c.hit_record O D t).material.diffuse.z := by
  have hs := sample_texture_nonneg c htex
  simp only [Cube.hit_record, Intersect.mkHit]
  exact ⟨mul_nonneg hd.1 (hs _ _).1, mul_nonneg hd.2.1 (hs _ _).2.1,
    mul_nonneg hd.2.2 (hs _ _).2.2⟩

theorem composite_bounds {dX sX rX tX a0 a1 a2 a3 : ℝ}
    (hd : 0 ≤ dX) (hs : 0 ≤ sX) (hr : 0 ≤ rX) (ht : 0 ≤ tX)
    (h0 : 0 ≤ a0) (h1 : 0 ≤ a1) (h2 : 0 ≤ a2) (h3 : 0 ≤ a3)
    {amb : ℝ} (hamb0 : 0 ≤ amb) (hamb1 : amb ≤ 1) :
    amb ≤ min (dX * a0 + sX * a1 + rX * a2 + tX * a3 + amb) 1 ∧
    min (dX * a0 + sX * a1 + rX * a2 + tX * a3 + amb) 1 ≤ 1 := by
  refine ⟨le_min ?_ hamb1, min_le_right _ _⟩
  have hda := mul_nonneg hd h0
  have hsa := mul_nonneg hs h1
  have hra := mul_nonneg hr h2
  have hta := mul_nonneg ht h3
  linarith

theorem cast_ray_bounds_aux (n : ℕ) :
    ∀ (depth : ℕ), MAX_RAY_DEPTH + 1 - depth ≤ n →
    ∀ (O D : Vector3) (objects : List Cube) (light : Light) (cam : Camera)
      (fov aspect : ℝ),
    0 ≤ light.intensity →
    (∀ c ∈ objects,
      (0 ≤ c.material.diffuse.x ∧ 0 ≤ c.material.diffuse.y ∧ 0 ≤ c.material.diffuse.z) ∧
      (∀ i : Fin 4, 0 ≤ c.material.albedo i) ∧
      (∀ tex, c.texture = some tex → ∀ u v : ℝ,
        0 ≤ (tex.sample u v).x ∧ 0 ≤ (tex.sample u v).y ∧ 0 ≤ (tex.sample u v).z)) →
    (0.1 ≤ (cast_ray O D objects light depth cam fov aspect).x ∧
      (cast_ray O D objects light depth cam fov aspect).x ≤ 1) ∧
    (0.1 ≤ (cast_ray O D objects light depth cam fov aspect).y ∧
      (cast_ray O D objects light depth cam fov aspect).y ≤ 1) ∧
    (0.15 ≤ (cast_ray O D objects light depth cam fov aspect).z ∧
      (cast_ray O D objects light depth cam fov aspect).z ≤ 1) := by
  induction n with
  | zero =>
    intro depth hdep O D objects light cam fov aspect hint hscene
    have hd : depth > MAX_RAY_DEPTH := by
      simp only [MAX_RAY_DEPTH] at hdep ⊢
      omega
    rw [cast_ray.eq_def, if_pos hd]
    exact procedural_sky_bounds D
  | succ n ih =>
    intro depth hdep O D objects light cam fov aspect hint hscene
    by_cases hd : depth > MAX_RAY_DEPTH
    · rw [cast_ray.eq_def, if_pos hd]
      exact procedural_sky_bounds D
    by_cases hscan : (scene_closest_hit objects O D cam fov aspect).is_intersecting = false
    · rw [cast_ray_sky O D objects light depth cam fov aspect hscan]
      exact procedural_sky_bounds D
    have hscan2 : (scene_closest_hit objects O D cam fov aspect).is_intersecting = true := by
      simpa using hscan
    rcases (scene_foldl_spec O D cam fov aspect objects Intersect.empty).1 with
      hemp | ⟨c, hcmem, hfr, hch, heq⟩
    · rw [scene_closest_hit_eq_foldl, hemp] at hscan2
      simp [Intersect.empty] at hscan2
    rcases ray_intersect_shape c O D with hemp2 | ⟨t, hrec⟩
    · rw [hemp2] at hch
      simp [Intersect.empty] at hch
    have hsc : scene_closest_hit objects O D cam fov aspect = c.hit_record O D t := by
      rw [scene_closest_hit_eq_foldl, heq]
      exact hrec
    have hmat := hscene c hcmem
    have hdif := hit_record_diffuse_nonneg c O D t hmat.1 hmat.2.2
    have halb : ∀ i : Fin 4, 0 ≤ (c.hit_record O D t).material.albedo i := by
      rw [hit_record_albedo]
      exact hmat.2.1
    have hsh := shadow_term_bounds (c.hit_record O D t) light objects
    have hfall : (0 : ℝ) ≤ 1 / (1 +
        (light.position - (c.hit_record O D t).point).length *
          (light.position - (c.hit_record O D t).point).length * 0.005) := by
      apply div_nonneg (by norm_num)
      nlinarith [mul_self_nonneg ((light.position - (c.hit_record O D t).point).length)]
    have hI : 0 ≤ light.intensity *
        (1 - shadow_intensity_term (c.hit_record O D t) light objects) *
        (1 / (1 + (light.position - (c.hit_record O D t).point).length *
          (light.position - (c.hit_record O D t).point).length * 0.005)) :=
      mul_nonneg (mul_nonneg hint (by linarith [hsh.2])) hfall
    have hkdI : 0 ≤ max ((c.hit_record O D t).normal.dot
        ((light.position - (c.hit_record O D t).point).normalized)) 0 *
        (light.intensity *
          (1 - shadow_intensity_term (c.hit_record O D t) light objects) *
          (1 / (1 + (light.position - (c.hit_record O D t).point).length *
            (light.position - (c.hit_record O D t).point).length * 0.005))) :=
      mul_nonneg (le_max_right _ _) hI
    have hspec := specular_component_nonneg O (c.hit_record O D t) light
      ((light.position - (c.hit_record O D t).point).normalized)
      ((light.position - (c.hit_record O D t).point).length)
      (light.intensity *
        (1 - shadow_intensity_term (c.hit_record O D t) light objects) *
        (1 / (1 + (light.position - (c.hit_record O D t).point).length *
          (light.position - (c.hit_record O D t).point).length * 0.005)))
      depth hI
    have hIH : ∀ o2 d2 : Vector3,
        (0.1 ≤ (cast_ray o2 d2 objects light (depth + 1) cam fov aspect).x ∧
          (cast_ray o2 d2 objects light (depth + 1) cam fov aspect).x ≤ 1) ∧
        (0.1 ≤ (cast_ray o2 d2 objects light (depth + 1) cam fov aspect).y ∧
          (cast_ray o2 d2 objects light (depth + 1) cam fov aspect).y ≤ 1) ∧
        (0.15 ≤ (cast_ray o2 d2 objects light (depth + 1) cam fov aspect).z ∧
          (cast_ray o2 d2 objects light (depth + 1) cam fov aspect).z ≤ 1) := by
      intro o2 d2
      apply ih (depth + 1) _ o2 d2 objects light cam fov aspect hint hscene
      simp only [MAX_RAY_DEPTH] at hdep ⊢
      omega
    rw [cast_ray.eq_def, if_neg hd]
    simp only [hsc]
    rw [if_neg (by simp [hit_record_intersecting])]
    simp only [Vector3.add_def, Vector3.hmul_def]
    refine ⟨?_, ?_, ?_⟩
    · refine composite_bounds ?_ ?_ ?_ ?_ (halb 0) (halb 1) (halb 2) (halb 3)
        (by norm_num) (by norm_num)
      · exact mul_nonneg hdif.1 hkdI
      · exact hspec.1
      · split
        · exact le_trans (by norm_num) (hIH _ _).1.1
        · simp [Vector3.zero]
      · split
        · exact le_trans (by norm_num) (hIH _ _).1.1
        · simp [Vector3.zero]
    · refine composite_bounds ?_ ?_ ?_ ?_ (halb 0) (halb 1) (halb 2) (halb 3)
        (by norm_num) (by norm_num)
      · exact mul_nonneg hdif.2.1 hkdI
      · exact hspec.2.1
      · split
        · exact le_trans (by norm_num) (hIH _ _).2.1.1
        · simp [Vector3.zero]
      · split
        · exact le_trans (by norm_num) (hIH _ _).2.1.1
        · simp [Vector3.zero]
    · refine composite_bounds ?_ ?_ ?_ ?_ (halb 0) (halb 1) (halb 2) (halb 3)
        (by norm_num) (by norm_num)
      · exact mul_nonneg hdif.2.2 hkdI
      · exact hspec.2.2
      · split
        · exact le_trans (by norm_num) (hIH _ _).2.2.1
        · simp [Vector3.zero]
      · split
        · exact le_trans (by norm_num) (hIH _ _).2.2.1
        · simp [Vector3.zero]

/-- C8 [corrected]: the composite of cast_ray is clamped only from above
(min with 1, main.rs lines 206-210); there is no lower clamp, so the
claimed [0,1] range holds under the data-model assumptions that the light
intensity, the material diffuse colors and albedo weights, and the
texture samples of every scene cube are nonnegative — and fails for
negative albedo weights, which the material model permits. -/
theorem C8_color_range (O D : Vector3) (objects : List Cube) (light : Light)
    (depth : ℕ) (cam : Camera) (fov aspect : ℝ)
    (hint : 0 ≤ light.intensity)
    (hscene : ∀ c ∈ objects,
      (0 ≤ c.material.diffuse.x ∧ 0 ≤ c.material.diffuse.y ∧ 0 ≤ c.material.diffuse.z) ∧
      (∀ i : Fin 4, 0 ≤ c.material.albedo i) ∧
      (∀ tex, c.texture = some tex → ∀ u v : ℝ,
        0 ≤ (tex.sample u v).x ∧ 0 ≤ (tex.sample u v).y ∧ 0 ≤ (tex.sample u v).z)) :
    (0 ≤ (cast_ray O D objects light depth cam fov aspect).x ∧
      (cast_ray O D objects light depth cam fov aspect).x ≤ 1) ∧
    (0 ≤ (cast_ray O D objects light depth cam fov aspect).y ∧
      (cast_ray O D objects light depth cam fov aspect).y ≤ 1) ∧
    (0 ≤ (cast_ray O D objects light depth cam fov aspect).z ∧
      (cast_ray O D objects light depth cam fov aspect).z ≤ 1) := by
  obtain ⟨hx, hy, hz⟩ := cast_ray_bounds_aux (MAX_RAY_DEPTH + 1) depth
    (Nat.sub_le _ _) O D objects light cam fov aspect hint hscene
  exact ⟨⟨by linarith [hx.1], hx.2⟩, ⟨by linarith [hy.1], hy.2⟩,
    ⟨by linarith [hz.1], hz.2⟩⟩

/-- Witness for C8_color_range: an empty scene with the probe light. -/
theorem C8_color_range_witness :
    (0 ≤ (cast_ray ⟨0, 0, 0⟩ ⟨0, 1, 0⟩ [] (probeLight 5) 0 probeCamera 1 1).x ∧
      (cast_ray ⟨0, 0, 0⟩ ⟨0, 1, 0⟩ [] (probeLight 5) 0 probeCamera 1 1).x ≤ 1) ∧
    (0 ≤ (cast_ray ⟨0, 0, 0⟩ ⟨0, 1, 0⟩ [] (probeLight 5) 0 probeCamera 1 1).y ∧
      (cast_ray ⟨0, 0, 0⟩ ⟨0, 1, 0⟩ [] (probeLight 5) 0 probeCamera 1 1).y ≤ 1) ∧
    (0 ≤ (cast_ray ⟨0, 0, 0⟩ ⟨0, 1, 0⟩ [] (probeLight 5) 0 probeCamera 1 1).z ∧
      (cast_ray ⟨0, 0, 0⟩ ⟨0, 1, 0⟩ [] (probeLight 5) 0 probeCamera 1 1).z ≤ 1) :=
  C8_color_range ⟨0, 0, 0⟩ ⟨0, 1, 0⟩ [] (probeLight 5) 0 probeCamera 1 1
    (by simp only [probeLight]; norm_num)
    (by intro c hc; exact absurd hc (List.not_mem_nil c))

/-- C10 [corrected]: under the same nonnegativity assumptions as C8, the
color returned by cast_ray — both for hits (where the ambient term is
added before the upper clamp) and for sky pixels (whose gradient colors
all dominate the ambient constant) — is bounded below componentwise by
the ambient (0.1, 0.1, 0.15); with a negative albedo weight, which the
material model permits, the bound fails. -/
theorem C10_ambient_floor (O D : Vector3) (objects : List Cube) (light : Light)
    (depth : ℕ) (cam : Camera) (fov aspect : ℝ)
    (hint : 0 ≤ light.intensity)
    (hscene : ∀ c ∈ objects,
      (0 ≤ c.material.diffuse.x ∧ 0 ≤ c.material.diffuse.y ∧ 0 ≤ c.material.diffuse.z) ∧
      (∀ i : Fin 4, 0 ≤ c.material.albedo i) ∧
      (∀ tex, c.texture = some tex → ∀ u v : ℝ,
        0 ≤ (tex.sample u v).x ∧ 0 ≤ (tex.sample u v).y ∧ 0 ≤ (tex.sample u v).z)) :
    0.1 ≤ (cast_ray O D objects light depth cam fov aspect).x ∧
    0.1 ≤ (cast_ray O D objects light depth cam fov aspect).y ∧
    0.15 ≤ (cast_ray O D objects light depth cam fov aspect).z := by
  obtain ⟨hx, hy, hz⟩ := cast_ray_bounds_aux (MAX_RAY_DEPTH + 1) depth
    (Nat.sub_le _ _) O D objects light cam fov aspect hint hscene
  exact ⟨hx.1, hy.1, hz.1⟩

/-- Witness for C10_ambient_floor: an empty scene with the probe light. -/
theorem C10_ambient_floor_witness :
    0.1 ≤ (cast_ray ⟨0, 0, 0⟩ ⟨1, 0, 0⟩ [] (probeLight 5) 0 probeCamera 1 1).x ∧
    0.1 ≤ (cast_ray ⟨0, 0, 0⟩ ⟨1, 0, 0⟩ [] (probeLight 5) 0 probeCamera 1 1).y ∧
    0.15 ≤ (cast_ray ⟨0, 0, 0⟩ ⟨1, 0, 0⟩ [] (probeLight 5) 0 probeCamera 1 1).z :=
  C10_ambient_floor ⟨0, 0, 0⟩ ⟨1, 0, 0⟩ [] (probeLight 5) 0 probeCamera 1 1
    (by simp only [probeLight]; norm_num)
    (by intro c hc; exact absurd hc (List.not_mem_nil c))

theorem len_probe_light : (Vector3.mk 0 5 0 - Vector3.mk 0 1 0).length = 4 :=
  length_eval (by norm_num) (by norm_num)

theorem probe_frustum (a0 a1 : ℝ) :
    is_in_frustum (probeCube a0 a1).center (probeCube a0 a1).size probeCamera 1 1 =
      true := by
  have hlen5 : (Vector3.mk 0 0 0 - Vector3.mk 0 5 0).length = 5 :=
    length_eval (by norm_num) (by norm_num)
  have hlen5b : (Vector3.mk 0 (-5) 0).length = 5 :=
    length_eval (by norm_num) (by norm_num)
  have hnorm5 : (Vector3.mk 0 0 0 - Vector3.mk 0 5 0).normalized = ⟨0, -1, 0⟩ := by
    simp only [Vector3.normalized, Vector3.sub_def]
    norm_num [hlen5b]
  simp only [is_in_frustum, FRUSTUM_CULLING, probeCube, probeCamera]
  rw [if_neg (by simp)]
  rw [if_neg (by rw [hlen5]; norm_num)]
  rw [if_neg (by rw [hnorm5]; norm_num [Vector3.dot])]

theorem probe_scene_hit (a0 a1 : ℝ) :
    scene_closest_hit [probeCube a0 a1] ⟨0, 5, 0⟩ ⟨0, -1, 0⟩ probeCamera 1 1 =
      Intersect.mkHit ⟨0, 1, 0⟩ ⟨0, 1, 0⟩ 4 (probeMaterial a0 a1) := by
  rw [scene_closest_hit_eq_foldl, List.foldl_cons, List.foldl_nil]
  rw [closest_hit_step_take Intersect.empty (probe_frustum a0 a1)
    ⟨by rw [probe_ray_intersect]; rfl, Or.inl rfl⟩]
  exact probe_ray_intersect a0 a1

theorem probe_shadow_miss (a0 a1 : ℝ) :
    (probeCube a0 a1).ray_intersect ⟨0, 1.0001, 0⟩ ⟨0, 1, 0⟩ = Intersect.empty := by
  simp only [probeCube, Cube.ray_intersect]
  rw [invDir_of_small (by norm_num), invDir_of_large (by norm_num)]
  norm_num [min_def, max_def]

theorem probe_shadow_eval (a0 a1 b0 b1 : ℝ) :
    shadow_intensity_term
      (Intersect.mkHit ⟨0, 1, 0⟩ ⟨0, 1, 0⟩ 4 (probeMaterial b0 b1))
      (probeLight 5) [probeCube a0 a1] = 0 := by
  simp only [shadow_intensity_term, probeLight, Intersect.mkHit]
  rw [if_pos (by rw [len_probe_light]; norm_num)]
  simp only [cast_shadow]
  rw [if_neg (by rw [len_probe_light]; norm_num)]
  rw [normalized_probe_view]
  have horigin : offset_origin
      ⟨true, ⟨0, 1, 0⟩, ⟨0, 1, 0⟩, 4, probeMaterial b0 b1⟩ ⟨0, 1, 0⟩ =
      ⟨0, 1.0001, 0⟩ := by
    simp only [offset_origin, ORIGIN_BIAS, Vector3.dot, Vector3.hmul_def]
    rw [if_neg (by norm_num)]
    simp only [Vector3.add_def]
    norm_num
  rw [horigin]
  simp only [shadow_scan]
  rw [probe_shadow_miss]
  simp [Intersect.empty]

theorem cast_ray_probe_eval (a0 : ℝ) :
    cast_ray ⟨0, 5, 0⟩ ⟨0, -1, 0⟩ [probeCube a0 0] (probeLight 5) 0 probeCamera 1 1 =
      ⟨min (25 / 9 * a0 + 0.1) 1, min (25 / 9 * a0 + 0.1) 1,
        min (25 / 9 * a0 + 0.15) 1⟩ := by
  rw [cast_ray.eq_def, if_neg (by simp [MAX_RAY_DEPTH])]
  simp only [probe_scene_hit]
  rw [if_neg (by simp [Intersect.mkHit])]
  rw [probe_shadow_eval]
  have href : ¬((Intersect.mkHit ⟨0, 1, 0⟩ ⟨0, 1, 0⟩ 4
      (probeMaterial a0 0)).material.albedo 2 > 0 ∧ 0 < MAX_RAY_DEPTH) := by
    simp [Intersect.mkHit, probeMaterial]
  have hrefr : ¬((Intersect.mkHit ⟨0, 1, 0⟩ ⟨0, 1, 0⟩ 4
      (probeMaterial a0 0)).material.albedo 3 > 0 ∧ 0 < MAX_RAY_DEPTH) := by
    simp [Intersect.mkHit, probeMaterial]
  rw [dif_neg href, dif_neg hrefr]
  simp only [probeLight, Intersect.mkHit]
  rw [normalized_probe_view]
  simp only [probeMaterial, Vector3.hmul_def, Vector3.add_def, Vector3.dot,
    Vector3.zero, len_probe_light]
  norm_num [Matrix.cons_val_zero, Matrix.cons_val_one, Matrix.head_cons,
    max_def, Vector3.mk.injEq]

/-- C8 counterexample: a white-diffuse cube whose diffuse albedo weight is
-1 (the material model does not constrain albedo signs) yields, for the
primary ray hitting its top face with the light 4 units above, the color
component 25/9 * (-1) + 0.1 = -241/90 < 0: the output is not clamped from
below, so it escapes [0, 1]. -/
theorem C8_counterexample :
    (cast_ray ⟨0, 5, 0⟩ ⟨0, -1, 0⟩ [probeCube (-1) 0] (probeLight 5) 0
      probeCamera 1 1).x < 0 := by
  rw [cast_ray_probe_eval]
  norm_num [min_def]

/-- C10 counterexample: with diffuse albedo weight -9/500 the same probe
hit returns x component min(25/9 * (-9/500) + 0.1, 1) = 1/20, which is
below the claimed ambient floor 0.1. -/
theorem C10_counterexample :
    (cast_ray ⟨0, 5, 0⟩ ⟨0, -1, 0⟩ [probeCube (-(9 / 500)) 0] (probeLight 5) 0
      probeCamera 1 1).x < 0.1 := by
  rw [cast_ray_probe_eval]
  norm_num [min_def]

/-- C9 [corrected]: the pitch of a camera always lies in [-pi/2, pi/2]
(the range of the unclamped arcsin used by the constructor) after
construction followed by any sequence of camera operations, and every
rotate operation moreover leaves pitch inside [-1.5, 1.5]; construction
itself can exceed 1.5, so the claimed all-times [-1.5, 1.5] bound only
holds from the first rotation onward. -/
theorem C9_pitch_bounds (eye center up : Vector3) (ops : List CamOp) :
    (-(Real.pi / 2) ≤ (applyCamOps (Camera.new eye center up) ops).pitch ∧
      (applyCamOps (Camera.new eye center up) ops).pitch ≤ Real.pi / 2) ∧
    ∀ c : Camera, ∀ dy dp : ℝ,
      -1.5 ≤ (c.rotate dy dp).pitch ∧ (c.rotate dy dp).pitch ≤ 1.5 := by
  constructor
  · apply pitch_interval_ops
    simp only [Camera.new, update_basis_pitch]
    exact ⟨Real.neg_pi_div_two_le_arcsin _, Real.arcsin_le_pi_div_two _⟩
  · intro c dy dp
    simp only [Camera.rotate, update_basis_pitch]
    exact ⟨le_min (le_max_right _ _) (by norm_num), min_le_right _ _⟩

/-- C9 counterexample: constructing a camera looking straight up sets
pitch to arcsin 1 = pi/2, which exceeds the claimed bound 1.5, and no
rotation has happened yet. -/
theorem C9_counterexample :
    (Camera.new ⟨0, 0, 0⟩ ⟨0, 1, 0⟩ ⟨0, 1, 0⟩).pitch = Real.pi / 2 ∧
      1.5 < (Camera.new ⟨0, 0, 0⟩ ⟨0, 1, 0⟩ ⟨0, 1, 0⟩).pitch := by
  have hlen : (Vector3.mk 0 1 0 - Vector3.mk 0 0 0).length = 1 := by
    simp only [Vector3.sub_def, Vector3.length, Vector3.dot]
    norm_num
  have hpitch : (Camera.new ⟨0, 0, 0⟩ ⟨0, 1, 0⟩ ⟨0, 1, 0⟩).pitch = Real.pi / 2 := by
    simp only [Camera.new, update_basis_pitch, Vector3.normalized, hlen]
    norm_num [Real.arcsin_one]
  refine ⟨hpitch, ?_⟩
  rw [hpitch]
  have := Real.pi_gt_three
  linarith

theorem count_flatMap (l : List ℕ) (f : ℕ → List (ℕ × ℕ)) (p : ℕ × ℕ) :
    (l.flatMap f).count p = (l.map fun a => (f a).count p).sum := by
  induction l with
  | nil => rfl
  | cons a t ih => simp [List.flatMap_cons, List.count_append, ih]

theorem count_map_pair (l : List ℕ) (y px py : ℕ) :
    (l.map fun x => (x, y)).count (px, py) = if py = y then l.count px else 0 := by
  induction l with
  | nil => simp
  | cons a t ih =>
    simp only [List.map_cons, List.count_cons, ih, beq_iff_eq, Prod.mk.injEq]
    by_cases hy : py = y
    · by_cases hx : a = px <;> simp [hx, hy]
    · have hne : ¬(a = px ∧ y = py) := fun h => hy h.2.symm
      simp [hy, hne]

theorem count_range_aux (a : ℕ) : ∀ (n s : ℕ),
    (List.range' s n).count a = if s ≤ a ∧ a < s + n then 1 else 0 := by
  intro n
  induction n with
  | zero =>
    intro s
    have h0 : List.range' s 0 = [] := rfl
    rw [h0, List.count_nil, if_neg (by omega)]
  | succ n ih =>
    intro s
    rw [List.range'_succ s n 1, List.count_cons, ih (s + 1)]
    simp only [beq_iff_eq]
    split_ifs <;> omega

theorem count_range_eval (a n : ℕ) :
    (List.range n).count a = if a < n then 1 else 0 := by
  rw [List.range_eq_range' n, count_range_aux]
  split_ifs <;> omega

theorem sum_map_ite_count (l : List ℕ) (a : ℕ) (C : ℕ) :
    (l.map fun y => if a = y then C else 0).sum = l.count a * C := by
  induction l with
  | nil => simp
  | cons b t ih =>
    simp only [List.map_cons, List.sum_cons, ih, List.count_cons, beq_iff_eq]
    by_cases h : a = b
    · rw [if_pos h, if_pos h.symm]
      ring
    · rw [if_neg h, if_neg (fun hba => h hba.symm)]
      ring

theorem sum_map_indicator_unique (n i0 : ℕ) (f : ℕ → ℕ) (hi : i0 < n)
    (h1 : f i0 = 1) (h0 : ∀ i, i < n → i ≠ i0 → f i = 0) :
    ((List.range n).map f).sum = 1 := by
  induction n with
  | zero => omega
  | succ n ih =>
    rw [List.range_succ, List.map_append, List.sum_append]
    simp only [List.map_cons, List.map_nil, List.sum_cons, List.sum_nil]
    by_cases h : i0 = n
    · subst h
      rw [h1]
      have hz : ((List.range i0).map f).sum = 0 := by
        apply List.sum_eq_zero
        intro x hx
        obtain ⟨i, hi2, rfl⟩ := List.mem_map.mp hx
        rw [List.mem_range] at hi2
        exact h0 i (by omega) (by omega)
      omega
    · have hi0 : i0 < n := by omega
      rw [ih hi0 (fun i hin hne => h0 i (by omega) hne)]
      rw [h0 n (by omega) (fun he => h he.symm)]
      omega

theorem lt_div_succ_mul (a b : ℕ) (hb : 0 < b) : a < (a / b + 1) * b := by
  rw [Nat.add_mul, one_mul]
  have h := Nat.div_add_mod a b
  have hm := Nat.mod_lt a hb
  calc a = b * (a / b) + a % b := h.symm
  _ < b * (a / b) + b := by omega
  _ = a / b * b + b := by rw [Nat.mul_comm]

theorem interval_indicator_sum (W r s a : ℕ) (hs : 1 ≤ s) (hW : W ≤ r * s)
    (ha : a < W) :
    ((List.range r).map fun i =>
      if i * s ≤ a ∧ a < min ((i + 1) * s) W then 1 else 0).sum = 1 := by
  have hdiv : a / s < r := by
    rw [Nat.div_lt_iff_lt_mul (by omega)]
    calc a < W := ha
    _ ≤ r * s := hW
  apply sum_map_indicator_unique r (a / s) _ hdiv
  · rw [if_pos]
    refine ⟨Nat.div_mul_le_self a s, lt_min (lt_div_succ_mul a s (by omega)) ha⟩
  · intro i hir hne
    rw [if_neg]
    rintro ⟨hc1, hc2⟩
    have hc2a : a < (i + 1) * s := lt_of_lt_of_le hc2 (min_le_left _ _)
    rcases lt_or_gt_of_ne hne with hlt | hgt
    · have h5 : (i + 1) * s ≤ a / s * s := Nat.mul_le_mul_right s (by omega)
      have h6 : a / s * s ≤ a := Nat.div_mul_le_self a s
      omega
    · have h5 : (a / s + 1) * s ≤ i * s := Nat.mul_le_mul_right s (by omega)
      have h6 : a < (a / s + 1) * s := lt_div_succ_mul a s (by omega)
      omega

theorem block_pixels_count (W H sx sy i j px py : ℕ) :
    (block_pixels W H sx sy i j).count (px, py) =
      (if j * sy ≤ py ∧ py < min ((j + 1) * sy) H then 1 else 0) *
      (if i * sx ≤ px ∧ px < min ((i + 1) * sx) W then 1 else 0) := by
  simp only [block_pixels]
  rw [count_flatMap]
  simp only [count_map_pair]
  rw [sum_map_ite_count, count_range_aux, count_range_aux]
  have hab : j * sy ≤ (j + 1) * sy := Nat.mul_le_mul_right sy (by omega)
  have hcd : i * sx ≤ (i + 1) * sx := Nat.mul_le_mul_right sx (by omega)
  split_ifs <;> omega

theorem low_res_core_count (W H rw rh sx sy px py : ℕ)
    (hsx : 1 ≤ sx) (hsy : 1 ≤ sy) (hW : W ≤ rw * sx) (hH : H ≤ rh * sy)
    (hpx : px < W) (hpy : py < H) :
    (low_res_core_pixels W H rw rh sx sy).count (px, py) = 1 := by
  simp only [low_res_core_pixels]
  rw [count_flatMap]
  simp only [count_flatMap, block_pixels_count]
  have hcol := interval_indicator_sum W rw sx px hsx hW hpx
  have hinner : ∀ j : ℕ, ((List.range rw).map fun i =>
      (if j * sy ≤ py ∧ py < min ((j + 1) * sy) H then 1 else 0) *
      (if i * sx ≤ px ∧ px < min ((i + 1) * sx) W then 1 else 0)).sum =
      (if j * sy ≤ py ∧ py < min ((j + 1) * sy) H then 1 else 0) := by
    intro j
    by_cases hj : j * sy ≤ py ∧ py < min ((j + 1) * sy) H
    · simp only [if_pos hj, one_mul]
      exact hcol
    · simp only [if_neg hj, zero_mul]
      apply List.sum_eq_zero
      intro x hx
      obtain ⟨i, _, rfl⟩ := List.mem_map.mp hx
      rfl
  simp only [hinner]
  exact interval_indicator_sum H rh sy py hsy hH hpy

theorem full_res_count (W H px py : ℕ) (hpx : px < W) (hpy : py < H) :
    (full_res_pixels W H).count (px, py) = 1 := by
  simp only [full_res_pixels]
  rw [count_flatMap]
  simp only [count_map_pair]
  rw [sum_map_ite_count, count_range_eval, count_range_eval,
    if_pos hpy, if_pos hpx]

theorem ceilNat_cover (W r : ℕ) (hr : 1 ≤ r) :
    W ≤ r * ceilNat ((W : ℚ) / (r : ℚ)) := by
  have hrQ : (0 : ℚ) < (r : ℚ) := by exact_mod_cast hr
  have h1 : (W : ℚ) / r ≤ (⌈(W : ℚ) / r⌉ : ℚ) := Int.le_ceil _
  have hc0 : 0 ≤ ⌈(W : ℚ) / (r : ℚ)⌉ :=
    Int.ceil_nonneg (div_nonneg (Nat.cast_nonneg _) hrQ.le)
  have h2 : (W : ℚ) ≤ (r : ℚ) * (⌈(W : ℚ) / r⌉ : ℚ) := by
    calc (W : ℚ) = r * ((W : ℚ) / r) := by field_simp
    _ ≤ r * ⌈(W : ℚ) / r⌉ := mul_le_mul_of_nonneg_left h1 hrQ.le
  have hZ : (W : ℤ) ≤ (r : ℤ) * ⌈(W : ℚ) / (r : ℚ)⌉ := by exact_mod_cast h2
  have h3 : ((r * (⌈(W : ℚ) / (r : ℚ)⌉).toNat : ℕ) : ℤ) =
      (r : ℤ) * ⌈(W : ℚ) / (r : ℚ)⌉ := by
    push_cast [Int.toNat_of_nonneg hc0]
    ring
  have h4 : (W : ℤ) ≤ ((r * ceilNat ((W : ℚ) / (r : ℚ)) : ℕ) : ℤ) := by
    simp only [ceilNat]
    rw [h3]
    exact hZ
  exact_mod_cast h4

theorem ceilNat_pos (W r : ℕ) (hW : 1 ≤ W) (hr : 1 ≤ r) :
    1 ≤ ceilNat ((W : ℚ) / (r : ℚ)) := by
  have hWQ : (0 : ℚ) < (W : ℚ) := by exact_mod_cast hW
  have hrQ : (0 : ℚ) < (r : ℚ) := by exact_mod_cast hr
  have h1 : (0 : ℤ) < ⌈(W : ℚ) / (r : ℚ)⌉ := Int.ceil_pos.mpr (div_pos hWQ hrQ)
  simp only [ceilNat]
  omega

/-- C7 [confirmed]: for every framebuffer size with W, H at least 1 and
every render scale in (0, 1], render_adaptive performs exactly one
set_pixel call for each pixel of the framebuffer: at scales of at least
0.95 the full-resolution double loop covers each pixel once, and below
that the clipped step_x by step_y blocks partition the framebuffer while
both edge gap-fill passes are provably dead (rw * ceil(W/rw) never falls
short of W). -/
theorem C7_adaptive_fill (W H : ℕ) (s : ℚ) (hW : 1 ≤ W) (hH : 1 ≤ H)
    (hs0 : 0 < s) (hs1 : s ≤ 1) (px py : ℕ) (hpx : px < W) (hpy : py < H) :
    (render_adaptive_pixels W H s).count (px, py) = 1 := by
  simp only [render_adaptive_pixels]
  split_ifs with hfull
  · exact full_res_count W H px py hpx hpy
  · have hrw1 : 1 ≤ min (max (roundNat ((W : ℚ) * s)) 1) W :=
      le_min (le_max_right _ _) hW
    have hrh1 : 1 ≤ min (max (roundNat ((H : ℚ) * s)) 1) H :=
      le_min (le_max_right _ _) hH
    have hsx1 := ceilNat_pos W _ hW hrw1
    have hsy1 := ceilNat_pos H _ hH hrh1
    have hWcov := ceilNat_cover W _ hrw1
    have hHcov := ceilNat_cover H _ hrh1
    rw [List.count_append, List.count_append]
    rw [low_res_core_count W H _ _ _ _ px py hsx1 hsy1 hWcov hHcov hpx hpy]
    have hre : right_edge_fill_pixels W H
        (min (max (roundNat ((W : ℚ) * s)) 1) W)
        (ceilNat ((W : ℚ) / ((min (max (roundNat ((W : ℚ) * s)) 1) W : ℕ) : ℚ))) =
        [] := by
      simp only [right_edge_fill_pixels]
      rw [if_neg]
      rintro ⟨hlt, _⟩
      omega
    have hbe : bottom_edge_fill_pixels W H
        (min (max (roundNat ((W : ℚ) * s)) 1) W)
        (min (max (roundNat ((H : ℚ) * s)) 1) H)
        (ceilNat ((W : ℚ) / ((min (max (roundNat ((W : ℚ) * s)) 1) W : ℕ) : ℚ)))
        (ceilNat ((H : ℚ) / ((min (max (roundNat ((H : ℚ) * s)) 1) H : ℕ) : ℚ))) =
        [] := by
      simp only [bottom_edge_fill_pixels]
      rw [if_neg]
      rintro ⟨hlt, _⟩
      omega
    rw [hre, hbe]
    rfl

/-- Witness for C7_adaptive_fill on a 10 by 7 framebuffer at scale 1/4,
checking the last pixel (9, 6). -/
theorem C7_adaptive_fill_witness :
    ((1 : ℕ) ≤ 10 ∧ (1 : ℕ) ≤ 7 ∧ (0 : ℚ) < 1 / 4 ∧ (1 / 4 : ℚ) ≤ 1 ∧
      (9 : ℕ) < 10 ∧ (6 : ℕ) < 7) ∧
    (render_adaptive_pixels 10 7 (1 / 4)).count (9, 6) = 1 :=
  ⟨by norm_num,
    C7_adaptive_fill 10 7 (1 / 4) (by norm_num) (by norm_num) (by norm_num)
      (by norm_num) 9 6 (by norm_num) (by norm_num)⟩

end RT
